import Mathlib

/-
Verification of the data-cleaning pipeline of the ai-insight-engine
repository (src/app/services/cleaner.py, class DataCleaner) against its
natural-language specification.

The embedding models a pandas DataFrame as an ordered list of column
names, their storage dtypes, and rows of cells.  Numeric values are
exact rationals; missing values (NaN/NaT/None) are the distinguished
cell `Cell.null`.  Pandas treats NaN as equal to NaN inside
`duplicated`/`drop_duplicates`, which matches decidable equality on
`Cell`.  Third-party statistical routines that the code merely calls
(sklearn KNNImputer / IsolationForest, pandas to_datetime/to_numeric)
are modelled as oracle parameters: the theorems hold for every oracle,
and witnesses instantiate them with concrete functions.
-/

set_option maxRecDepth 10000

namespace AIE

/-- Scalar cell value of a tabular dataset: missing (null), a numeric
value (int64/float64 entries, modelled as exact rationals), a string
(object dtype), or a timestamp (datetime64, as an integer tick). -/
inductive Cell where
  | null : Cell
  | num : ℚ → Cell
  | str : String → Cell
  | time : Int → Cell
deriving DecidableEq

/-- Pandas storage dtype of a column, restricted to the kinds the
repository manipulates. -/
inductive Dtype where
  | float64 : Dtype
  | int64 : Dtype
  | obj : Dtype
  | dt64 : Dtype
deriving DecidableEq

/-- Semantic column type returned by `DataCleaner._infer_column_type`. -/
inductive CType where
  | numeric : CType
  | categorical : CType
  | datetime : CType
  | text : CType
  | boolean : CType
  | id : CType
  | unknown : CType
deriving DecidableEq

/-- True exactly on the missing cell (pandas `isnull`). -/
def Cell.isNull : Cell → Bool
  | .null => true
  | _ => false

/-- A dtype is numeric in the pandas sense (int64 or float64). -/
def Dtype.isNum : Dtype → Bool
  | .float64 => true
  | .int64 => true
  | _ => false

/-- Tabular dataset: ordered column names, their dtypes, and the rows
(each row lists the cells in column order). -/
structure DF where
  names : List String
  dtypes : List Dtype
  rows : List (List Cell)
deriving DecidableEq

/-- Number of missing cells in one row. -/
def nullCount (r : List Cell) : ℕ := (r.filter (fun c => c.isNull)).length

/-- Total number of missing cells (`df.isnull().sum().sum()`). -/
def missingCells (df : DF) : ℕ := (df.rows.map nullCount).sum

/-- Cells of column `j`, in row order (`df[col]`). -/
def DF.col (df : DF) (j : ℕ) : List Cell := df.rows.map (fun r => r.getD j Cell.null)

/-- Dtype of column `j`. -/
def DF.dtypeAt (df : DF) (j : ℕ) : Dtype := df.dtypes.getD j Dtype.obj

/-- Name of column `j`. -/
def DF.nameAt (df : DF) (j : ℕ) : String := df.names.getD j ""

/-- Well-formedness: dtypes align with names, every row has one cell per
column, and cells agree with the declared dtype of their column. -/
def cellFits : Dtype → Cell → Bool
  | _, .null => true
  | .float64, .num _ => true
  | .int64, .num _ => true
  | .obj, .str _ => true
  | .dt64, .time _ => true
  | _, _ => false

def DF.wf (df : DF) : Prop :=
  df.dtypes.length = df.names.length ∧
  (∀ r ∈ df.rows, r.length = df.names.length) ∧
  (∀ r ∈ df.rows, ∀ j, j < df.names.length →
    cellFits (df.dtypes.getD j Dtype.obj) (r.getD j Cell.null) = true)

instance (df : DF) : Decidable df.wf := by
  unfold DF.wf; infer_instance

/-- Pandas `duplicated(keep=first)` flags, one per element: an element is
flagged when an equal element occurs earlier in the list.  `seen`
accumulates the elements already passed. -/
def dupFlagsAux [DecidableEq α] (seen : List α) : List α → List Bool
  | [] => []
  | r :: rs => decide (r ∈ seen) :: dupFlagsAux (r :: seen) rs

/-- Number of rows flagged as duplicates (`df.duplicated().sum()`). -/
def duplicatedCount [DecidableEq α] (l : List α) : ℕ :=
  (dupFlagsAux [] l).count true

/-- Pandas `drop_duplicates(keep=first)`: keep an element exactly when no
equal element occurs earlier. -/
def dropDupAux [DecidableEq α] (seen : List α) : List α → List α
  | [] => []
  | r :: rs =>
    if r ∈ seen then dropDupAux (r :: seen) rs
    else r :: dropDupAux (r :: seen) rs

def dropDuplicates [DecidableEq α] (l : List α) : List α := dropDupAux [] l

/-- Quality snapshot produced by `DataCleaner._profile_data`. -/
structure Stats where
  rowCount : ℕ
  colCount : ℕ
  totalCells : ℕ
  missingCellsN : ℕ
  duplicateRows : ℕ
  missingPercentage : ℚ
  duplicatePercentage : ℚ
  qualityScore : ℚ
deriving DecidableEq

/-- Model of `DataCleaner._profile_data`: dataset-wide quality metrics and the
scalar quality score `completeness * 0.6 + uniqueness * 0.4`. -/
def profileData (df : DF) : Stats :=
  let n := df.rows.length
  let c := df.names.length
  let total := n * c
  let miss := missingCells df
  let dups := duplicatedCount df.rows
  let missPct : ℚ := if 0 < total then (miss : ℚ) / (total : ℚ) * 100 else 0
  let dupPct : ℚ := if 0 < n then (dups : ℚ) / (n : ℚ) * 100 else 0
  let completeness : ℚ := 100 - missPct
  let uniqueness : ℚ := 100 - dupPct
  { rowCount := n
    colCount := c
    totalCells := total
    missingCellsN := miss
    duplicateRows := dups
    missingPercentage := missPct
    duplicatePercentage := dupPct
    qualityScore := completeness * 0.6 + uniqueness * 0.4 }

/-- Nullness mask of a dataset: which cells are missing, position by
position. -/
def nullMask (df : DF) : List (List Bool) :=
  df.rows.map (fun r => r.map Cell.isNull)

/-! ## Schema inference (`_infer_column_type`, `_analyze_column`) -/

/-- Oracle model of the pandas text parsers invoked by the inferrer:
`date` is success of `pd.to_datetime` on one string, `num` is
`pd.to_numeric` (returning the parsed value).  All theorems hold for
every oracle; witnesses pick a concrete one. -/
structure Parsers where
  date : String → Bool
  num : String → Option ℚ

def cellParsesDate (P : Parsers) : Cell → Bool
  | .str s => P.date s
  | .time _ => true
  | _ => false

def cellParsesNum (P : Parsers) : Cell → Bool
  | .str s => (P.num s).isSome
  | .num _ => true
  | _ => false

/-- Python `str(v)` for the cell kinds an object column can hold. -/
def cellStr : Cell → String
  | .str s => s
  | .num q => toString q
  | .time t => toString t
  | .null => ""

/-- Python `str.lower()`.  (`String.toLower` of the core library is
implemented through `String.mapAux`, which the kernel cannot evaluate;
this equivalent map over the character data reduces.) -/
def lowerStr (s : String) : String := String.mk (s.data.map Char.toLower)

def boolTokens : List String :=
  ["true", "false", "yes", "no", "y", "n", "1", "0", "t", "f"]

/-- Model of `DataCleaner._infer_column_type`, with the precedence order of the
source: unknown on an all-null column, datetime dtype, textual date
parse (first 100 non-null values, all must parse), numeric dtype,
textual numeric parse, boolean token set of size at most 2, uniqueness
above 0.95 (distinct non-null over total length including nulls),
cardinality below 50 for categorical, text otherwise. -/
def inferColumnType (P : Parsers) (dt : Dtype) (cells : List Cell) : CType :=
  let nonNull := cells.filter (fun c => !c.isNull)
  if nonNull.length = 0 then CType.unknown
  else if dt = Dtype.dt64 then CType.datetime
  else if dt = Dtype.obj ∧ (nonNull.take 100).all (cellParsesDate P) then CType.datetime
  else if dt = Dtype.float64 ∨ dt = Dtype.int64 then CType.numeric
  else if dt = Dtype.obj ∧ (nonNull.take 100).all (cellParsesNum P) then CType.numeric
  else
    let uniqueVals := (nonNull.map (fun c => lowerStr (cellStr c))).dedup
    if uniqueVals.all (fun s => decide (s ∈ boolTokens)) ∧ uniqueVals.length ≤ 2 then
      CType.boolean
    else
      let nunique := nonNull.dedup.length
      if (95 : ℚ) / 100 < (nunique : ℚ) / (cells.length : ℚ) then CType.id
      else if nunique < 50 then CType.categorical
      else CType.text

/-- Pandas `series.nunique()`: number of distinct non-null values. -/
def nuniqueOf (cells : List Cell) : ℕ :=
  ((cells.filter (fun c => !c.isNull)).dedup).length

/-- Cardinality bucket recorded by `_analyze_column` for categorical
columns: high exactly when the unique count exceeds 50. -/
def cardinalityBucket (uc : ℕ) : String :=
  if 50 < uc then "high" else "low"

/-- Schema of the whole dataset: the inferred type of every column, in
column order (`_infer_schema` restricted to the fields downstream
stages read). -/
def schemaTypes (P : Parsers) (df : DF) : List CType :=
  (List.range df.names.length).map (fun j => inferColumnType P (df.dtypeAt j) (df.col j))

/-! ## Cleaning log -/

/-- One entry of the cleaning log, as assembled by `DataCleaner._log`:
an action, a details text and an optional confidence label. -/
structure LogEntry where
  action : String
  details : String
  confidence : String
deriving DecidableEq

/-- Round to the nearest integer, ties to even (the rounding of Python
float formatting, exact here because all scores are rationals). -/
def halfEven (q : ℚ) : Int :=
  let f := q.floor
  let r := q - f
  if 1 < 2 * r then f + 1
  else if 2 * r < 1 then f
  else if f % 2 = 0 then f
  else f + 1

/-- Fixed-point rendering with `d` decimals, Python `format(q, .df)`. -/
def fmtDec (d : ℕ) (q : ℚ) : String :=
  let p : ℕ := 10 ^ d
  let n := halfEven (q * (p : ℚ))
  let sgn := if n < 0 then "-" else ""
  let m := n.natAbs
  if d = 0 then sgn ++ toString m
  else sgn ++ toString (m / p) ++ "." ++ (toString (p + m % p)).drop 1

def loadedEntry (df : DF) : LogEntry :=
  ⟨"File loaded successfully",
    toString df.rows.length ++ " rows, " ++ toString df.names.length ++ " columns", ""⟩

def schemaEntry (df : DF) : LogEntry :=
  ⟨"Schema inferred", toString df.names.length ++ " columns analyzed", ""⟩

def qualityEntry (action : String) (q : ℚ) : LogEntry :=
  ⟨action, fmtDec 1 q ++ "/100", ""⟩

def improveEntry (d : ℚ) : LogEntry :=
  ⟨"Quality improvement", "+" ++ fmtDec 1 d ++ " points", ""⟩

/-! ## Generic per-cell transformation

Every mutating pass of the cleaner rewrites cells pointwise, with the
rewrite depending on the row index, the column index and the old cell
(the source loops over columns; since each loop iteration touches only
its own column, the net effect is this pointwise map). -/

def mapRowAux (g : ℕ → Cell → Cell) (j : ℕ) : List Cell → List Cell
  | [] => []
  | c :: cs => g j c :: mapRowAux g (j + 1) cs

def transformAux (g : ℕ → ℕ → Cell → Cell) (i : ℕ) : List (List Cell) → List (List Cell)
  | [] => []
  | r :: rs => mapRowAux (g i) 0 r :: transformAux g (i + 1) rs

def transformCells (g : ℕ → ℕ → Cell → Cell) (rows : List (List Cell)) :
    List (List Cell) :=
  transformAux g 0 rows

/-- Cell at row `i`, column `j`. -/
def cellAt (rows : List (List Cell)) (i j : ℕ) : Cell :=
  (rows.getD i []).getD j Cell.null

/-! ## Imputer (`_handle_missing_values`) -/

/-- Numeric values of column `j` (nulls dropped). -/
def colNums (df : DF) (j : ℕ) : List ℚ :=
  (df.col j).filterMap (fun c => match c with | Cell.num q => some q | _ => none)

/-- Missing cells of column `j` (`df[col].isnull().sum()`). -/
def colNullCount (df : DF) (j : ℕ) : ℕ := nullCount (df.col j)

/-- One fold step of the mode computation. -/
def modeStep (full : List Cell) (best : Option Cell) (a : Cell) : Option Cell :=
  match best with
  | none => some a
  | some b => if full.count b < full.count a then some a else some b

/-- Pandas `Series.mode()[0]` restricted to what the proofs rely on: a
most frequent value of the list, earliest maximiser kept on ties. -/
def modeOf (l : List Cell) : Option Cell := l.foldl (modeStep l) none

/-- Mean of a list of rationals (`Series.mean()` over non-null values). -/
def meanQ (l : List ℚ) : ℚ := l.sum / (l.length : ℚ)

/-- Column types the mode-imputation branch handles. -/
def eligibleCat : CType → Bool
  | .categorical => true
  | .text => true
  | .boolean => true
  | _ => false

/-- Schema-numeric columns that contain a missing value (the columns the
KNN branch of the imputer fills). -/
def imputeNumericIdx (types : List CType) (df : DF) : List ℕ :=
  (List.range df.names.length).filter
    (fun j => decide (types.getD j CType.unknown = CType.numeric) &&
      decide (0 < colNullCount df j))

/-- Categorical, text or boolean columns that contain a missing value
(the columns the mode branch of the imputer fills). -/
def imputeCatIdx (types : List CType) (df : DF) : List ℕ :=
  (List.range df.names.length).filter
    (fun j => eligibleCat (types.getD j CType.unknown) &&
      decide (0 < colNullCount df j))

/-- Mode of a column over its non-null values. -/
def imputeModeAt (df : DF) (j : ℕ) : Option Cell :=
  modeOf ((df.col j).filter (fun c => !c.isNull))

/-- Cell rewrite of the imputer.  On the sklearn success path (`knnOk`)
a filled numeric column is written back wholesale, converting parseable
strings of an object column to numbers; on the fallback path each
missing cell is replaced by the column mean.  Mode-imputed columns fill
missing cells with the column mode when one exists. -/
def imputeG (P : Parsers) (knnOk : Bool) (knn : ℕ → ℕ → ℚ) (types : List CType)
    (df : DF) : ℕ → ℕ → Cell → Cell := fun i j c =>
  if j ∈ imputeNumericIdx types df then
    (if knnOk then
      match c with
      | Cell.null => Cell.num (knn i j)
      | Cell.num q => Cell.num q
      | Cell.str s => Cell.num ((P.num s).getD 0)
      | Cell.time t => Cell.time t
    else
      match c with
      | Cell.null => Cell.num (meanQ (colNums df j))
      | c => c)
  else if j ∈ imputeCatIdx types df then
    match c, imputeModeAt df j with
    | Cell.null, some m => m
    | c, _ => c
  else c

/-- Model of `DataCleaner._handle_missing_values`.  `types` is the schema of the
original dataset (the source reads `self.schema`).  The KNN imputer is
third-party; its numeric outputs are the oracle `knn i j` and `knnOk`
selects between the sklearn success path and the mean-substitution
fallback of the `except` branch. -/
def handleMissingValues (P : Parsers) (knnOk : Bool) (knn : ℕ → ℕ → ℚ)
    (types : List CType) (df : DF) : DF × List LogEntry :=
  let missBefore := missingCells df
  if missBefore = 0 then (df, [])
  else
    let numericIdx := imputeNumericIdx types df
    let catIdx := imputeCatIdx types df
    let rows2 := transformCells (imputeG P knnOk knn types df) df.rows
    let dtypes2 := (List.range df.dtypes.length).map
      (fun j => if knnOk && decide (j ∈ numericIdx) then Dtype.float64
        else df.dtypes.getD j Dtype.obj)
    let df2 : DF := ⟨df.names, dtypes2, rows2⟩
    let missAfter := missingCells df2
    let filled := missBefore - missAfter
    let knnLog :=
      if numericIdx = [] then []
      else if knnOk then
        [⟨"KNN imputation applied",
          toString numericIdx.length ++ " numeric columns, " ++
            toString (numericIdx.map (fun j => colNullCount df j)).sum ++ " values filled",
          "medium"⟩]
      else
        [⟨"Mean imputation applied",
          toString numericIdx.length ++ " numeric columns (KNN failed)", "low"⟩]
    let modeLog :=
      if catIdx = [] then []
      else [⟨"Mode imputation applied",
        toString catIdx.length ++ " categorical columns", "high"⟩]
    let imputedCols :=
      numericIdx.length + (catIdx.filter (fun j => (imputeModeAt df j).isSome)).length
    let doneLog :=
      if 0 < filled then
        [⟨"Missing values handled",
          toString filled ++ " values imputed across " ++ toString imputedCols ++ " columns",
          ""⟩]
      else []
    (df2, knnLog ++ modeLog ++ doneLog)

/-! ## Outlier handler (`_handle_outliers`, `_apply_business_rules`) -/

def insertSorted (x : ℚ) : List ℚ → List ℚ
  | [] => [x]
  | y :: ys => if x ≤ y then x :: y :: ys else y :: insertSorted x ys

def sortQ (l : List ℚ) : List ℚ := l.foldr insertSorted []

/-- Pandas `Series.quantile(q)` with the default linear interpolation,
over the sorted non-null values. -/
def quantileQ (l : List ℚ) (q : ℚ) : ℚ :=
  let v := sortQ l
  let m := v.length
  let pos := q * ((m : ℚ) - 1)
  let lo := pos.floor.toNat
  let lowv := v.getD lo 0
  let hiv := v.getD (min (lo + 1) (m - 1)) lowv
  lowv + (pos - (pos.floor : ℚ)) * (hiv - lowv)

/-- IQR fence `[Q1 - 1.5 IQR, Q3 + 1.5 IQR]` of a value list. -/
def iqrBounds (vals : List ℚ) : ℚ × ℚ :=
  let q1 := quantileQ vals (1 / 4)
  let q3 := quantileQ vals (3 / 4)
  let iqr := q3 - q1
  (q1 - 3 / 2 * iqr, q3 + 3 / 2 * iqr)

/-- Pandas `Series.median()` over non-null values: `none` when the list
is empty (pandas yields NaN, which the source then writes back). -/
def medianQ (l : List ℚ) : Option ℚ :=
  let v := sortQ l
  let m := v.length
  if m = 0 then none
  else if m % 2 = 1 then some (v.getD (m / 2) 0)
  else some ((v.getD (m / 2 - 1) 0 + v.getD (m / 2) 0) / 2)

/-- Substring test on character lists (Python `term in name`). -/
def startsWithL : List Char → List Char → Bool
  | [], _ => true
  | _ :: _, [] => false
  | a :: as, b :: bs => decide (a = b) && startsWithL as bs

def subList (needle : List Char) : List Char → Bool
  | [] => needle.isEmpty
  | c :: cs => startsWithL needle (c :: cs) || subList needle cs

def containsTerm (name : String) (terms : List String) : Bool :=
  terms.any (fun t => subList t.data (lowerStr name).data)

def revenueTerms : List String := ["revenue", "sales", "price", "cost", "amount"]

def quantityTerms : List String := ["quantity", "qty", "count"]

def revenueLike (name : String) : Bool := containsTerm name revenueTerms

def quantityLike (name : String) : Bool := containsTerm name quantityTerms

def sentinels : List ℚ := [999, 9999, 99999]

def isSentinel (q : ℚ) : Bool := decide (q ∈ sentinels)

/-- The schema-numeric column indices. -/
def numericIdxOf (types : List CType) (ncols : ℕ) : List ℕ :=
  (List.range ncols).filter (fun j => decide (types.getD j CType.unknown = CType.numeric))

/-- IQR fence of a column. -/
def colIqrLb (df : DF) (j : ℕ) : ℚ := (iqrBounds (colNums df j)).1

def colIqrUb (df : DF) (j : ℕ) : ℚ := (iqrBounds (colNums df j)).2

/-- Values of a column outside its IQR fence. -/
def colOutCount (df : DF) (j : ℕ) : ℕ :=
  (colNums df j).countP (fun q => decide (q < colIqrLb df j) || decide (colIqrUb df j < q))

/-- A column the IQR pass touches: schema-numeric, of numeric dtype
(quantile raises on any other dtype and the per-column `except` skips
the column), holding at least one numeric value (with none, quantiles
are NaN, every comparison is false and nothing is clamped). -/
def iqrActive (types : List CType) (df : DF) (j : ℕ) : Bool :=
  decide (j ∈ numericIdxOf types df.names.length) && (df.dtypeAt j).isNum &&
    decide (colNums df j ≠ [])

/-- Negative values of a column (rule 1 of the business rules). -/
def colNegCount (df : DF) (j : ℕ) : ℕ :=
  (colNums df j).countP (fun q => decide (q < 0))

/-- A column rule 1 touches: revenue-like name, numeric dtype. -/
def rule1Active (df : DF) (j : ℕ) : Bool :=
  revenueLike (df.nameAt j) && (df.dtypeAt j).isNum

/-- Sentinel values of a column (rule 2 of the business rules). -/
def colSentinelCount (df : DF) (j : ℕ) : ℕ :=
  (colNums df j).countP isSentinel

/-- Median of the non-sentinel values of a column. -/
def colMedianNonSentinel (df : DF) (j : ℕ) : Option ℚ :=
  medianQ ((colNums df j).filter (fun q => !isSentinel q))

/-- A column rule 2 touches: quantity-like name, numeric dtype. -/
def rule2Active (df : DF) (j : ℕ) : Bool :=
  quantityLike (df.nameAt j) && (df.dtypeAt j).isNum

/-- Cell rewrite of the IQR clamping pass. -/
def iqrG (types : List CType) (df : DF) : ℕ → ℕ → Cell → Cell := fun _ j c =>
  if iqrActive types df j then
    match c with
    | Cell.num q =>
        if q < colIqrLb df j then Cell.num (colIqrLb df j)
        else if colIqrUb df j < q then Cell.num (colIqrUb df j)
        else Cell.num q
    | c => c
  else c

/-- IQR clamping pass of `_handle_outliers`: for each active column,
values outside the fence are clamped to it.  Returns the new frame, the
per-column log entries and the total number of values capped. -/
def iqrPass (types : List CType) (df : DF) : DF × List LogEntry × ℕ :=
  let logs := (numericIdxOf types df.names.length).filterMap (fun j =>
    if iqrActive types df j && decide (0 < colOutCount df j) then
      some ⟨"IQR outliers capped in " ++ df.nameAt j,
        toString (colOutCount df j) ++ " values capped to [" ++
          fmtDec 2 (colIqrLb df j) ++ ", " ++ fmtDec 2 (colIqrUb df j) ++ "]", "high"⟩
    else none)
  let total := ((numericIdxOf types df.names.length).map
    (fun j => if iqrActive types df j then colOutCount df j else 0)).sum
  (⟨df.names, df.dtypes, transformCells (iqrG types df) df.rows⟩, logs, total)

/-- Cell rewrite of rule 1. -/
def rule1G (df : DF) : ℕ → ℕ → Cell → Cell := fun _ j c =>
  if rule1Active df j then
    match c with
    | Cell.num q => if q < 0 then Cell.num 0 else Cell.num q
    | c => c
  else c

/-- Rule 1 of `_apply_business_rules`: in every revenue-like numeric
column, negative values are reset to zero. -/
def rule1Pass (df : DF) : DF × List LogEntry × ℕ :=
  let logs := (List.range df.names.length).filterMap (fun j =>
    if rule1Active df j && decide (0 < colNegCount df j) then
      some ⟨"Business rule applied to " ++ df.nameAt j,
        toString (colNegCount df j) ++ " negative values set to 0", "high"⟩
    else none)
  let total := ((List.range df.names.length).map
    (fun j => if rule1Active df j then colNegCount df j else 0)).sum
  (⟨df.names, df.dtypes, transformCells (rule1G df) df.rows⟩, logs, total)

/-- Cell rewrite of rule 2. -/
def rule2G (df : DF) : ℕ → ℕ → Cell → Cell := fun _ j c =>
  if rule2Active df j && decide (0 < colSentinelCount df j) then
    match c with
    | Cell.num q =>
        if isSentinel q then
          match colMedianNonSentinel df j with
          | some m => Cell.num m
          | none => Cell.null
        else Cell.num q
    | c => c
  else c

/-- Rule 2 of `_apply_business_rules`: in every quantity-like numeric
column holding at least one sentinel (999, 9999, 99999), sentinels are
replaced by the median of the non-sentinel values of that column (NaN,
hence null, when every value is a sentinel). -/
def rule2Pass (df : DF) : DF × List LogEntry × ℕ :=
  let logs := (List.range df.names.length).filterMap (fun j =>
    if rule2Active df j && decide (0 < colSentinelCount df j) then
      some ⟨"Suspicious values in " ++ df.nameAt j,
        toString (colSentinelCount df j) ++ " values (999/9999) replaced with median",
        "medium"⟩
    else none)
  let total := ((List.range df.names.length).map
    (fun j => if rule2Active df j then colSentinelCount df j else 0)).sum
  (⟨df.names, df.dtypes, transformCells (rule2G df) df.rows⟩, logs, total)

/-- Model of `DataCleaner._apply_business_rules`: rule 1 then rule 2 over the
shared frame; returns the corrected frame, the log entries and the
total correction count. -/
def applyBusinessRules (df : DF) : DF × List LogEntry × ℕ :=
  let r1 := rule1Pass df
  let r2 := rule2Pass r1.1
  (r2.1, r1.2.1 ++ r2.2.1, r1.2.2 + r2.2.2)

/-- Rows that are complete across the given numeric columns
(`df[numeric_cols].dropna()`). -/
def completeNumericRows (df : DF) (numericIdx : List ℕ) : ℕ :=
  df.rows.countP (fun r => numericIdx.all (fun j => !(r.getD j Cell.null).isNull))

/-- Model of `DataCleaner._handle_outliers`.  The IsolationForest detector is
third-party; the number of rows it flags is the oracle `iso`, consumed
only by the log (the pass never writes to the frame).  It runs only
when more than 10 complete numeric rows exist.  Then the IQR clamping
pass and the business-rule pass run; with no numeric column the whole
handler returns its input at once. -/
def handleOutliers (iso : ℕ) (types : List CType) (df : DF) : DF × List LogEntry :=
  let numericIdx := numericIdxOf types df.names.length
  if numericIdx = [] then (df, [])
  else
    let isoLog :=
      if 10 < completeNumericRows df numericIdx ∧ 0 < iso then
        [⟨"IsolationForest outliers detected",
          toString iso ++ " anomalous rows identified", "medium"⟩]
      else []
    let r1 := iqrPass types df
    let r2 := applyBusinessRules r1.1
    let handled := r1.2.2 + r2.2.2
    let summary :=
      if 0 < handled then
        [⟨"Outliers handled",
          toString handled ++ " outliers detected and capped/corrected", ""⟩]
      else []
    (r2.1, isoLog ++ r1.2.1 ++ r2.2.1 ++ summary)

/-! ## Deduplicator (`_remove_duplicates`) -/

/-- Model of `DataCleaner._remove_duplicates`: drop exact duplicate rows keeping
the first occurrence; no-op without a log entry when no duplicates
exist. -/
def removeDuplicates (df : DF) : DF × List LogEntry :=
  let d := duplicatedCount df.rows
  if d = 0 then (df, [])
  else
    let rows2 := dropDuplicates df.rows
    (⟨df.names, df.dtypes, rows2⟩,
      [⟨"Duplicates removed",
        toString d ++ " duplicate rows removed, " ++ toString rows2.length ++
          " rows remaining", "high"⟩])

/-! ## Pipeline orchestrator (`DataCleaner.clean`, stages 2 to 7) -/

structure CleanResult where
  df : DF
  log : List LogEntry
  statsBefore : Stats
  statsAfter : Stats
  qualityScore : ℚ
deriving DecidableEq

/-- Model of `DataCleaner.clean` after the file is loaded: schema inference,
before-profile, imputation (skipped when nothing is missing), outlier
handling, deduplication (skipped when nothing is duplicated),
after-profile, improvement entry when the score rose. -/
def cleanPipeline (P : Parsers) (knnOk : Bool) (knn : ℕ → ℕ → ℚ) (iso : ℕ)
    (df0 : DF) : CleanResult :=
  let types := schemaTypes P df0
  let sb := profileData df0
  let step1 :=
    if 0 < sb.missingCellsN then handleMissingValues P knnOk knn types df0
    else (df0, [])
  let step2 := handleOutliers iso types step1.1
  let step3 :=
    if 0 < duplicatedCount step2.1.rows then removeDuplicates step2.1
    else (step2.1, [])
  let sa := profileData step3.1
  let improvement := sa.qualityScore - sb.qualityScore
  let improveLog := if 0 < improvement then [improveEntry improvement] else []
  { df := step3.1
    log := [loadedEntry df0, schemaEntry df0, qualityEntry "Initial data quality" sb.qualityScore]
      ++ step1.2 ++ step2.2 ++ step3.2
      ++ [qualityEntry "Final data quality" sa.qualityScore] ++ improveLog
    statsBefore := sb
    statsAfter := sa
    qualityScore := sa.qualityScore }

/-! ## Loader (`_load_file`) -/

/-- Error kinds of the loader contract.  The source raises `ValueError`
with distinct messages; the spec names them `UnsupportedFormatError`,
`EmptyDatasetError` and `ParseError`. -/
inductive LoadError where
  | unsupportedFormat : LoadError
  | emptyDataset : LoadError
  | parseError : LoadError
deriving DecidableEq

/-- Model of the file handed to `_load_file`: the lowercased extension
of the path and the outcome of the pandas reader on the content
(`Except.error` when the content is malformed). -/
structure FileModel where
  ext : String
  parsed : Except Unit DF

/-- Model of `DataCleaner._load_file`: dispatch on the extension, fail on an
unknown one; parse; fail when the frame is empty (pandas `df.empty`
holds when the row count or the column count is zero — the later
`len(df.columns) == 0` check is subsumed). -/
def loadFile (f : FileModel) : Except LoadError DF :=
  if f.ext = ".csv" ∨ f.ext = ".xlsx" ∨ f.ext = ".xls" then
    match f.parsed with
    | Except.error _ => Except.error LoadError.parseError
    | Except.ok df =>
        if df.rows.length = 0 ∨ df.names.length = 0 then
          Except.error LoadError.emptyDataset
        else Except.ok df
  else Except.error LoadError.unsupportedFormat

/-- Whole run: load, then clean.  A load failure yields no result. -/
def runOnFile (P : Parsers) (knnOk : Bool) (knn : ℕ → ℕ → ℚ) (iso : ℕ)
    (f : FileModel) : Except LoadError CleanResult :=
  (loadFile f).map (cleanPipeline P knnOk knn iso)

/-! ## Concrete instances used by witnesses and counterexamples -/

/-- Degenerate parser oracle: nothing parses as a date or a number (the
behaviour of `pd.to_datetime` / `pd.to_numeric` on the string data the
concrete datasets below contain). -/
def noParse : Parsers := ⟨fun _ => false, fun _ => none⟩

/-- Zero KNN oracle for witnesses. -/
def knn0 : ℕ → ℕ → ℚ := fun _ _ => 0

/-- Column `j` is free of missing cells. -/
def noNullCol (rows : List (List Cell)) (j : ℕ) : Prop :=
  ∀ r ∈ rows, (r.getD j Cell.null).isNull = false

instance (rows : List (List Cell)) (j : ℕ) : Decidable (noNullCol rows j) := by
  unfold noNullCol; infer_instance

/-- The column types claim C2 calls eligible. -/
def eligibleC2 : CType → Bool
  | .numeric => true
  | .categorical => true
  | .boolean => true
  | _ => false

/-- The column types the imputer fills (numeric branch plus mode
branch). -/
def imputable (t : CType) : Bool :=
  decide (t = CType.numeric) || eligibleCat t

/-- Frame entering the outlier handler in `clean`: the imputation
output, or the loaded frame when nothing was missing. -/
def imputeOut (P : Parsers) (knnOk : Bool) (knn : ℕ → ℕ → ℚ) (df0 : DF) : DF :=
  if 0 < missingCells df0 then (handleMissingValues P knnOk knn (schemaTypes P df0) df0).1
  else df0

/-- Frame entering rule 2 of the business rules during a full run:
imputation output, then IQR clamping, then rule 1. -/
def rule2Input (P : Parsers) (knnOk : Bool) (knn : ℕ → ℕ → ℚ) (df0 : DF) : DF :=
  (rule1Pass (iqrPass (schemaTypes P df0) (imputeOut P knnOk knn df0)).1).1

/-- The sentinel proviso: whenever rule 2 fires on a column of the frame
it actually sees, that column still holds a non-sentinel numeric value,
so the median written back is a number and not NaN. -/
def sentinelProviso (df : DF) : Prop :=
  ∀ j < df.names.length, rule2Active df j = true → 0 < colSentinelCount df j →
    (colMedianNonSentinel df j).isSome = true

instance (df : DF) : Decidable (sentinelProviso df) := by
  unfold sentinelProviso; infer_instance

/-! Concrete datasets for witnesses and counterexamples. -/

/-- A quantity column whose every value is the sentinel 999: rule 2
writes the median of an empty list (NaN) into every cell. -/
def dfQtyAllSentinel : DF := ⟨["qty"], [Dtype.int64], [[Cell.num 999], [Cell.num 999]]⟩

/-- A quantity column where the median of the non-sentinel values 998
and 1000 is itself the sentinel 999. -/
def dfQtyMedian999 : DF :=
  ⟨["qty"], [Dtype.float64], [[Cell.num 998], [Cell.num 1000], [Cell.num 999]]⟩

/-- Six rows, seven columns: one categorical string column and six
datetime columns that are null except on the duplicated pair.  Dropping
the duplicate raises the missing percentage from 24/42 to 24/35, which
costs the completeness term more than the uniqueness term gains. -/
def dfDedupDrop : DF :=
  ⟨["uid", "d1", "d2", "d3", "d4", "d5", "d6"],
   [Dtype.obj, Dtype.dt64, Dtype.dt64, Dtype.dt64, Dtype.dt64, Dtype.dt64, Dtype.dt64],
   [[Cell.str "a1", Cell.null, Cell.null, Cell.null, Cell.null, Cell.null, Cell.null],
    [Cell.str "a2", Cell.null, Cell.null, Cell.null, Cell.null, Cell.null, Cell.null],
    [Cell.str "a3", Cell.null, Cell.null, Cell.null, Cell.null, Cell.null, Cell.null],
    [Cell.str "a4", Cell.null, Cell.null, Cell.null, Cell.null, Cell.null, Cell.null],
    [Cell.str "dup", Cell.time 1, Cell.time 2, Cell.time 3, Cell.time 4, Cell.time 5,
      Cell.time 6],
    [Cell.str "dup", Cell.time 1, Cell.time 2, Cell.time 3, Cell.time 4, Cell.time 5,
      Cell.time 6]]⟩

/-- A small dirty dataset: a quantity column with a missing value and a
sentinel, and a categorical column with a missing value. -/
def dfDirty : DF :=
  ⟨["quantity", "cat"], [Dtype.float64, Dtype.obj],
   [[Cell.num 1, Cell.str "x"],
    [Cell.null, Cell.str "z"],
    [Cell.num 999, Cell.null]]⟩

/-- An already-clean dataset: no missing cells, no duplicate rows, no
IQR violations, no negative revenue, no sentinel quantities. -/
def dfClean : DF :=
  ⟨["revenue", "quantity", "label"], [Dtype.float64, Dtype.int64, Dtype.obj],
   [[Cell.num 10, Cell.num 1, Cell.str "a"],
    [Cell.num 11, Cell.num 2, Cell.str "b"],
    [Cell.num 12, Cell.num 3, Cell.str "a"]]⟩

/-- Ten rows of which two exactly duplicate earlier rows. -/
def dfTenRows : DF :=
  ⟨["a", "b"], [Dtype.int64, Dtype.obj],
   [[Cell.num 1, Cell.str "u"],
    [Cell.num 2, Cell.str "v"],
    [Cell.num 3, Cell.str "w"],
    [Cell.num 1, Cell.str "u"],
    [Cell.num 4, Cell.str "x"],
    [Cell.num 5, Cell.str "y"],
    [Cell.num 2, Cell.str "v"],
    [Cell.num 6, Cell.str "z"],
    [Cell.num 7, Cell.str "p"],
    [Cell.num 8, Cell.str "q"]]⟩

/-- The string column of Scenario E in the spec. -/
def boolishFour : List Cell :=
  [Cell.str "true", Cell.str "false", Cell.str "yes", Cell.str "no"]

/-- A two-token variant of Scenario E that the rule does classify. -/
def boolishTwo : List Cell := [Cell.str "yes", Cell.str "no", Cell.str "yes"]

/-- File models for the loader claims. -/
def fileUnknownExt : FileModel := ⟨".pdf", Except.ok dfClean⟩

def fileMalformed : FileModel := ⟨".csv", Except.error ()⟩

/-- A parsed table with a header but zero data rows. -/
def dfNoRows : DF := ⟨["a"], [Dtype.obj], []⟩

def fileEmptyRows : FileModel := ⟨".csv", Except.ok dfNoRows⟩

def fileGood : FileModel := ⟨".csv", Except.ok dfClean⟩

/-! Basic bounds for the profiler. -/

theorem nullCount_le_length (r : List Cell) : nullCount r ≤ r.length :=
  List.length_filter_le _ r

theorem sum_nullCount_le (rows : List (List Cell)) (n : ℕ)
    (h : ∀ r ∈ rows, r.length = n) :
    (rows.map nullCount).sum ≤ rows.length * n := by
  induction rows with
  | nil => simp
  | cons r rs ih =>
    simp only [List.map_cons, List.sum_cons, List.length_cons]
    have h1 : nullCount r ≤ n := by
      have := nullCount_le_length r
      have hr := h r (by simp)
      omega
    have h2 : (rs.map nullCount).sum ≤ rs.length * n :=
      ih (fun r hr => h r (by simp [hr]))
    calc nullCount r + (rs.map nullCount).sum
        ≤ n + rs.length * n := Nat.add_le_add h1 h2
      _ = (rs.length + 1) * n := by ring

theorem missingCells_le_total (df : DF)
    (h : ∀ r ∈ df.rows, r.length = df.names.length) :
    missingCells df ≤ df.rows.length * df.names.length :=
  sum_nullCount_le df.rows df.names.length h

theorem dupFlagsAux_length [DecidableEq α] (seen : List α) (l : List α) :
    (dupFlagsAux seen l).length = l.length := by
  induction l generalizing seen with
  | nil => rfl
  | cons r rs ih => simp [dupFlagsAux, ih]

theorem duplicatedCount_le [DecidableEq α] (l : List α) :
    duplicatedCount l ≤ l.length := by
  unfold duplicatedCount
  calc (dupFlagsAux [] l).count true ≤ (dupFlagsAux [] l).length :=
        List.count_le_length _ _
    _ = l.length := dupFlagsAux_length [] l

theorem missingPercentage_bounds (df : DF)
    (h : ∀ r ∈ df.rows, r.length = df.names.length) :
    0 ≤ (profileData df).missingPercentage ∧
      (profileData df).missingPercentage ≤ 100 := by
  simp only [profileData]
  split
  · rename_i htot
    constructor
    · positivity
    · have hle : missingCells df ≤ df.rows.length * df.names.length :=
        missingCells_le_total df h
      have htotQ : (0 : ℚ) < (df.rows.length * df.names.length : ℕ) := by
        exact_mod_cast htot
      have hleQ : ((missingCells df : ℚ)) ≤ ((df.rows.length * df.names.length : ℕ) : ℚ) := by
        exact_mod_cast hle
      have hdiv : (missingCells df : ℚ) / ((df.rows.length * df.names.length : ℕ) : ℚ) ≤ 1 := by
        rw [div_le_one htotQ]; exact hleQ
      push_cast at hdiv ⊢
      nlinarith
  · exact ⟨le_refl 0, by norm_num⟩

theorem duplicatePercentage_bounds (df : DF) :
    0 ≤ (profileData df).duplicatePercentage ∧
      (profileData df).duplicatePercentage ≤ 100 := by
  simp only [profileData]
  split
  · rename_i hn
    constructor
    · positivity
    · have hle : duplicatedCount df.rows ≤ df.rows.length := duplicatedCount_le _
      have hnQ : (0 : ℚ) < (df.rows.length : ℚ) := by exact_mod_cast hn
      have hdiv : (duplicatedCount df.rows : ℚ) / (df.rows.length : ℚ) ≤ 1 := by
        rw [div_le_one hnQ]; exact_mod_cast hle
      nlinarith
  · exact ⟨le_refl 0, by norm_num⟩

theorem qualityScore_bounds (df : DF)
    (h : ∀ r ∈ df.rows, r.length = df.names.length) :
    0 ≤ (profileData df).qualityScore ∧ (profileData df).qualityScore ≤ 100 := by
  have hm := missingPercentage_bounds df h
  have hd := duplicatePercentage_bounds df
  have hq : (profileData df).qualityScore
      = (100 - (profileData df).missingPercentage) * 0.6
        + (100 - (profileData df).duplicatePercentage) * 0.4 := rfl
  rw [hq]
  constructor <;> nlinarith [hm.1, hm.2, hd.1, hd.2]

theorem nullCount_eq_mask (r : List Cell) :
    nullCount r = (r.map Cell.isNull).count true := by
  induction r with
  | nil => rfl
  | cons c cs ih =>
    cases c <;> simp [nullCount, List.filter, Cell.isNull, List.count_cons] at * <;>
      omega

theorem missingCells_eq_mask (df : DF) :
    missingCells df = ((nullMask df).map (fun m => m.count true)).sum := by
  unfold missingCells nullMask
  rw [List.map_map]
  congr 1
  apply List.map_congr_left
  intro r _
  exact nullCount_eq_mask r

/-! ## Lemmas about the generic cell transformer -/

theorem mapRowAux_length (g : ℕ → Cell → Cell) (j : ℕ) (r : List Cell) :
    (mapRowAux g j r).length = r.length := by
  induction r generalizing j with
  | nil => rfl
  | cons c cs ih => simp [mapRowAux, ih]

theorem transformAux_length (g : ℕ → ℕ → Cell → Cell) (i : ℕ)
    (rows : List (List Cell)) : (transformAux g i rows).length = rows.length := by
  induction rows generalizing i with
  | nil => rfl
  | cons r rs ih => simp [transformAux, ih]

theorem mapRowAux_getD (g : ℕ → Cell → Cell) (r : List Cell) :
    ∀ j k, k < r.length →
      (mapRowAux g j r).getD k Cell.null = g (j + k) (r.getD k Cell.null) := by
  induction r with
  | nil => intro j k h; simp at h
  | cons c cs ih =>
    intro j k h
    cases k with
    | zero => simp [mapRowAux]
    | succ k =>
      simp only [mapRowAux, List.getD_cons_succ]
      rw [ih (j + 1) k (by simpa using h)]
      have : j + 1 + k = j + (k + 1) := by omega
      rw [this]

theorem transformCells_len_forall (g : ℕ → ℕ → Cell → Cell)
    (rows : List (List Cell)) (n : ℕ) (h : ∀ r ∈ rows, r.length = n) :
    ∀ r ∈ transformCells g rows, r.length = n := by
  unfold transformCells
  suffices H : ∀ i, ∀ r ∈ transformAux g i rows, r.length = n from H 0
  induction rows with
  | nil => intro i r hr; simp [transformAux] at hr
  | cons s ss ih =>
    intro i r hr
    simp only [transformAux, List.mem_cons] at hr
    rcases hr with hr | hr
    · rw [hr, mapRowAux_length]; exact h s (by simp)
    · exact ih (fun r hr => h r (by simp [hr])) (i + 1) r hr

theorem mapRowAux_id (g : ℕ → Cell → Cell) (r : List Cell) :
    ∀ j, (∀ k, k < r.length → g (j + k) (r.getD k Cell.null) = r.getD k Cell.null) →
      mapRowAux g j r = r := by
  induction r with
  | nil => intro j _; rfl
  | cons c cs ih =>
    intro j h
    have h0 : g j c = c := by simpa using h 0 (by simp)
    have ht : mapRowAux g (j + 1) cs = cs := by
      apply ih
      intro k hk
      have := h (k + 1) (by simpa using Nat.succ_lt_succ hk)
      simpa [Nat.add_assoc, Nat.add_comm 1 k] using this
    simp [mapRowAux, h0, ht]

theorem transformCells_id (g : ℕ → ℕ → Cell → Cell) (rows : List (List Cell))
    (h : ∀ i k, i < rows.length → k < (rows.getD i []).length →
      g i k (cellAt rows i k) = cellAt rows i k) :
    transformCells g rows = rows := by
  unfold transformCells
  suffices H : ∀ rs i0,
      (∀ i k, i < rs.length → k < (rs.getD i []).length →
        g (i0 + i) k (cellAt rs i k) = cellAt rs i k) →
      transformAux g i0 rs = rs by
    apply H rows 0
    intro i k hi hk
    simpa using h i k hi hk
  intro rs
  induction rs with
  | nil => intro i0 _; rfl
  | cons s ss ih =>
    intro i0 h
    have hhead : mapRowAux (g i0) 0 s = s := by
      apply mapRowAux_id
      intro k hk
      have := h 0 k (by simp) (by simpa [List.getD_cons_zero] using hk)
      simpa [cellAt] using this
    have htail : transformAux g (i0 + 1) ss = ss := by
      apply ih
      intro i k hi hk
      have := h (i + 1) k (by simpa using Nat.succ_lt_succ hi)
        (by simpa [List.getD_cons_succ] using hk)
      have harith : i0 + (i + 1) = i0 + 1 + i := by omega
      rw [harith] at this
      simpa [cellAt, List.getD_cons_succ] using this
  -- combine
    simp [transformAux, hhead, htail]

theorem transformCells_col (g : ℕ → ℕ → Cell → Cell) (rows : List (List Cell))
    (j : ℕ) (p : Cell → Prop)
    (hlen : ∀ r ∈ rows, j < r.length)
    (hg : ∀ i, i < rows.length → p (g i j (cellAt rows i j))) :
    ∀ r ∈ transformCells g rows, p (r.getD j Cell.null) := by
  unfold transformCells
  suffices H : ∀ rs i0,
      (∀ r ∈ rs, j < r.length) →
      (∀ i, i < rs.length → p (g (i0 + i) j (cellAt rs i j))) →
      ∀ r ∈ transformAux g i0 rs, p (r.getD j Cell.null) by
    apply H rows 0 hlen
    intro i hi
    simpa using hg i hi
  intro rs
  induction rs with
  | nil => intro i0 _ _ r hr; simp [transformAux] at hr
  | cons s ss ih =>
    intro i0 hlen h r hr
    simp only [transformAux, List.mem_cons] at hr
    rcases hr with hr | hr
    · subst hr
      rw [mapRowAux_getD (g i0) s 0 j (hlen s (by simp))]
      have := h 0 (by simp)
      simpa [cellAt] using this
    · refine ih (i0 + 1) (fun r hr => hlen r (by simp [hr])) ?_ r hr
      intro i hi
      have := h (i + 1) (by simpa using Nat.succ_lt_succ hi)
      have harith : i0 + (i + 1) = i0 + 1 + i := by omega
      rw [harith] at this
      simpa [cellAt, List.getD_cons_succ] using this

/-! ## Lemmas about duplicate detection and removal -/

theorem dropDupAux_spec [DecidableEq α] (l : List α) : ∀ seen : List α,
    (dropDupAux seen l).Nodup ∧ (∀ x ∈ dropDupAux seen l, x ∉ seen) ∧
      (dropDupAux seen l).Sublist l ∧
      (∀ x ∈ l, x ∈ dropDupAux seen l ∨ x ∈ seen) := by
  induction l with
  | nil => intro seen; simp [dropDupAux]
  | cons r rs ih =>
    intro seen
    by_cases hr : r ∈ seen
    · have heq : dropDupAux seen (r :: rs) = dropDupAux (r :: seen) rs := by
        simp [dropDupAux, hr]
      obtain ⟨h1, h2, h3, h4⟩ := ih (r :: seen)
      refine ⟨heq ▸ h1, ?_, ?_, ?_⟩
      · intro x hx
        have := h2 x (heq ▸ hx)
        simp only [List.mem_cons] at this
        tauto
      · exact heq ▸ h3.cons r
      · intro x hx
        rw [List.mem_cons] at hx
        rcases hx with hx | hx
        · subst hx; exact Or.inr hr
        · rcases h4 x hx with h | h
          · exact Or.inl (heq ▸ h)
          · simp only [List.mem_cons] at h
            rcases h with h | h
            · subst h; exact Or.inr hr
            · exact Or.inr h
    · have heq : dropDupAux seen (r :: rs) = r :: dropDupAux (r :: seen) rs := by
        simp [dropDupAux, hr]
      obtain ⟨h1, h2, h3, h4⟩ := ih (r :: seen)
      refine ⟨?_, ?_, ?_, ?_⟩
      · rw [heq]
        refine List.Nodup.cons ?_ h1
        intro hmem
        have := h2 r hmem
        simp at this
      · intro x hx
        rw [heq, List.mem_cons] at hx
        rcases hx with hx | hx
        · subst hx; exact hr
        · have := h2 x hx
          simp only [List.mem_cons] at this
          tauto
      · rw [heq]; exact h3.cons₂ r
      · intro x hx
        rw [List.mem_cons] at hx
        rcases hx with hx | hx
        · subst hx; exact Or.inl (heq ▸ List.mem_cons_self _ _)
        · rcases h4 x hx with h | h
          · exact Or.inl (heq ▸ List.mem_cons_of_mem _ h)
          · simp only [List.mem_cons] at h
            rcases h with h | h
            · subst h; exact Or.inl (heq ▸ List.mem_cons_self _ _)
            · exact Or.inr h

theorem dropDuplicates_nodup [DecidableEq α] (l : List α) :
    (dropDuplicates l).Nodup := (dropDupAux_spec l []).1

theorem dropDuplicates_sublist [DecidableEq α] (l : List α) :
    (dropDuplicates l).Sublist l := (dropDupAux_spec l []).2.2.1

theorem mem_dropDuplicates [DecidableEq α] (l : List α) (x : α) :
    x ∈ dropDuplicates l ↔ x ∈ l := by
  constructor
  · exact fun h => (dropDuplicates_sublist l).mem h
  · intro h
    rcases (dropDupAux_spec l []).2.2.2 x h with h | h
    · exact h
    · simp at h

theorem nodup_dupFlags_count [DecidableEq α] (l : List α) : ∀ seen : List α,
    l.Nodup → (∀ x ∈ l, x ∉ seen) → (dupFlagsAux seen l).count true = 0 := by
  induction l with
  | nil => intro seen _ _; rfl
  | cons r rs ih =>
    intro seen hnd hout
    have hr : r ∉ seen := hout r (by simp)
    have : (decide (r ∈ seen)) = false := by simpa using hr
    simp only [dupFlagsAux, this, List.count_cons]
    have : (dupFlagsAux (r :: seen) rs).count true = 0 := by
      apply ih (r :: seen) (List.Nodup.of_cons hnd)
      intro x hx
      simp only [List.mem_cons, not_or]
      constructor
      · intro hxr
        subst hxr
        exact (List.nodup_cons.mp hnd).1 hx
      · exact hout x (by simp [hx])
    simp [this]

theorem duplicatedCount_of_nodup [DecidableEq α] (l : List α) (h : l.Nodup) :
    duplicatedCount l = 0 :=
  nodup_dupFlags_count l [] h (by simp)

theorem duplicatedCount_dropDuplicates [DecidableEq α] (l : List α) :
    duplicatedCount (dropDuplicates l) = 0 :=
  duplicatedCount_of_nodup _ (dropDuplicates_nodup l)

/-! ## Lemmas about the mode -/

theorem modeStep_foldl_some (full : List Cell) (l : List Cell) : ∀ b : Cell,
    ∃ x, l.foldl (modeStep full) (some b) = some x ∧ (x = b ∨ x ∈ l) := by
  induction l with
  | nil => intro b; exact ⟨b, rfl, Or.inl rfl⟩
  | cons a as ih =>
    intro b
    simp only [List.foldl_cons]
    by_cases hc : full.count b < full.count a
    · have hstep : modeStep full (some b) a = some a := by simp [modeStep, hc]
      rw [hstep]
      obtain ⟨x, hx, hmem⟩ := ih a
      exact ⟨x, hx, Or.inr (by rcases hmem with h | h <;> simp [h])⟩
    · have hstep : modeStep full (some b) a = some b := by simp [modeStep, hc]
      rw [hstep]
      obtain ⟨x, hx, hmem⟩ := ih b
      exact ⟨x, hx, by rcases hmem with h | h <;> simp [h]⟩

theorem modeOf_spec (l : List Cell) (h : l ≠ []) :
    ∃ x, modeOf l = some x ∧ x ∈ l := by
  cases l with
  | nil => exact absurd rfl h
  | cons a as =>
    unfold modeOf
    simp only [List.foldl_cons]
    have hstep : modeStep (a :: as) none a = some a := rfl
    rw [hstep]
    obtain ⟨x, hx, hmem⟩ := modeStep_foldl_some (a :: as) as a
    exact ⟨x, hx, by rcases hmem with h | h <;> simp [h]⟩

/-! ## Column-level lemmas -/

theorem getD_eq_getElem_of_lt (l : List α) (d : α) (k : ℕ) (h : k < l.length) :
    l.getD k d = l[k] := by
  rw [List.getD_eq_getElem?_getD, List.getElem?_eq_getElem h, Option.getD_some]

theorem getD_mem_of_lt (l : List α) (d : α) (k : ℕ) (h : k < l.length) :
    l.getD k d ∈ l := by
  rw [getD_eq_getElem_of_lt l d k h]
  exact List.getElem_mem h

theorem colNullCount_zero_iff (df : DF) (j : ℕ) :
    colNullCount df j = 0 ↔ noNullCol df.rows j := by
  unfold colNullCount nullCount DF.col noNullCol
  rw [List.length_eq_zero, List.filter_eq_nil]
  constructor
  · intro h r hr
    have := h _ (List.mem_map_of_mem _ hr)
    simpa using this
  · intro h c hc
    rw [List.mem_map] at hc
    obtain ⟨r, hr, rfl⟩ := hc
    simp only [h r hr]
    simp

theorem missingCells_eq_zero_of (df : DF)
    (hlen : ∀ r ∈ df.rows, r.length = df.names.length)
    (h : ∀ j, j < df.names.length → noNullCol df.rows j) :
    missingCells df = 0 := by
  unfold missingCells
  apply List.sum_eq_zero
  intro x hx
  rw [List.mem_map] at hx
  obtain ⟨r, hr, rfl⟩ := hx
  unfold nullCount
  rw [List.length_eq_zero, List.filter_eq_nil]
  intro c hc
  rw [List.mem_iff_getElem] at hc
  obtain ⟨k, hk, rfl⟩ := hc
  have hk2 : k < df.names.length := by rw [← hlen r hr]; exact hk
  have hnn := h k hk2 r hr
  rw [getD_eq_getElem_of_lt r Cell.null k hk] at hnn
  simp [hnn]

theorem noNullCol_of_missing_zero (df : DF) (h : missingCells df = 0)
    (j : ℕ) (hlen : ∀ r ∈ df.rows, j < r.length) :
    noNullCol df.rows j := by
  intro r hr
  have hrow : nullCount r = 0 := by
    have hm : ∀ x ∈ df.rows.map nullCount, x = 0 := by
      intro x hx
      exact Nat.eq_zero_of_le_zero (le_trans (List.le_sum_of_mem hx) (le_of_eq h))
    exact hm _ (List.mem_map_of_mem _ hr)
  unfold nullCount at hrow
  rw [List.length_eq_zero, List.filter_eq_nil] at hrow
  have hmem : r.getD j Cell.null ∈ r := getD_mem_of_lt r Cell.null j (hlen r hr)
  have := hrow _ hmem
  simpa using this

theorem mem_colNums (df : DF) (j : ℕ) (q : ℚ) :
    q ∈ colNums df j ↔ Cell.num q ∈ df.col j := by
  unfold colNums
  rw [List.mem_filterMap]
  constructor
  · rintro ⟨c, hc, hfc⟩
    cases c with
    | num q2 =>
        simp only [Option.some.injEq] at hfc
        subst hfc; exact hc
    | null => simp at hfc
    | str s => simp at hfc
    | time t => simp at hfc
  · intro h
    exact ⟨Cell.num q, h, rfl⟩

theorem mem_col_iff (df : DF) (j : ℕ) (c : Cell) :
    c ∈ df.col j ↔ ∃ r ∈ df.rows, r.getD j Cell.null = c := by
  unfold DF.col
  rw [List.mem_map]

/-! ## C1: the Profiler quality score -/

/-- C1: for every dataset, the Profiler quality score equals
`0.6 * completeness + 0.4 * uniqueness` with
`completeness = 100 - missing_percentage` and
`uniqueness = 100 - duplicate_percentage`; it always lies in [0, 100];
and it is a pure function of the cell-nullness mask and the exact
row-duplication flags (together with the row and column counts those
determine the score). -/
theorem C1_quality_score (df dg : DF) (hwf : df.wf)
    (hc : dg.names.length = df.names.length)
    (hmask : nullMask dg = nullMask df)
    (hdup : dupFlagsAux [] dg.rows = dupFlagsAux [] df.rows) :
    (profileData df).qualityScore =
        0.6 * (100 - (profileData df).missingPercentage) +
          0.4 * (100 - (profileData df).duplicatePercentage) ∧
      0 ≤ (profileData df).qualityScore ∧ (profileData df).qualityScore ≤ 100 ∧
      (profileData dg).qualityScore = (profileData df).qualityScore := by
  obtain ⟨-, hlen, -⟩ := hwf
  refine ⟨?_, (qualityScore_bounds df hlen).1, (qualityScore_bounds df hlen).2, ?_⟩
  · have h : (profileData df).qualityScore =
        (100 - (profileData df).missingPercentage) * 0.6 +
          (100 - (profileData df).duplicatePercentage) * 0.4 := rfl
    rw [h]; ring
  · have hn : dg.rows.length = df.rows.length := by
      have := congrArg List.length hmask
      simpa [nullMask] using this
    have hm : missingCells dg = missingCells df := by
      rw [missingCells_eq_mask, missingCells_eq_mask, hmask]
    have hd : duplicatedCount dg.rows = duplicatedCount df.rows := by
      unfold duplicatedCount; rw [hdup]
    simp only [profileData, hn, hm, hd, hc]

/-- Witness for C1 at a concrete dirty dataset. -/
theorem C1_quality_score_witness :
    (profileData dfDirty).qualityScore =
        0.6 * (100 - (profileData dfDirty).missingPercentage) +
          0.4 * (100 - (profileData dfDirty).duplicatePercentage) ∧
      0 ≤ (profileData dfDirty).qualityScore ∧
      (profileData dfDirty).qualityScore ≤ 100 ∧
      (profileData dfDirty).qualityScore = (profileData dfDirty).qualityScore :=
  C1_quality_score dfDirty dfDirty (by decide) rfl rfl rfl

/-! ## C7: the Loader contract -/

/-- C7: the Loader returns a Dataset or fails as follows: an unknown
extension fails with UnsupportedFormatError (before any parse),
malformed content fails with ParseError, a loaded table with zero rows
or zero columns fails with EmptyDatasetError; and on any load failure
(in particular an empty file) no Pipeline Result is produced. -/
theorem C7_loader_errors (f : FileModel) (df : DF) :
    (f.ext ≠ ".csv" ∧ f.ext ≠ ".xlsx" ∧ f.ext ≠ ".xls" →
      loadFile f = Except.error LoadError.unsupportedFormat) ∧
    ((f.ext = ".csv" ∨ f.ext = ".xlsx" ∨ f.ext = ".xls") →
      f.parsed = Except.error () → loadFile f = Except.error LoadError.parseError) ∧
    ((f.ext = ".csv" ∨ f.ext = ".xlsx" ∨ f.ext = ".xls") → f.parsed = Except.ok df →
      df.rows.length = 0 ∨ df.names.length = 0 →
      loadFile f = Except.error LoadError.emptyDataset) ∧
    (∀ P knnOk knn iso e res, loadFile f = Except.error e →
      runOnFile P knnOk knn iso f ≠ Except.ok res) := by
  refine ⟨?_, ?_, ?_, ?_⟩
  · intro h
    unfold loadFile
    rw [if_neg (by tauto)]
  · intro hext hp
    unfold loadFile
    rw [if_pos hext, hp]
  · intro hext hp hsz
    unfold loadFile
    rw [if_pos hext, hp]
    simp only [if_pos hsz]
  · intro P knnOk knn iso e res hload
    unfold runOnFile
    rw [hload]
    simp [Except.map]

/-- Witness for C7: a pdf extension, a malformed csv, and a header-only
csv (zero rows), which yields EmptyDatasetError and no result. -/
theorem C7_loader_errors_witness :
    loadFile fileUnknownExt = Except.error LoadError.unsupportedFormat ∧
    loadFile fileMalformed = Except.error LoadError.parseError ∧
    loadFile fileEmptyRows = Except.error LoadError.emptyDataset ∧
    runOnFile noParse true knn0 0 fileEmptyRows ≠
      Except.ok (cleanPipeline noParse true knn0 0 dfClean) := by
  have h1 := (C7_loader_errors fileUnknownExt dfClean).1 (by decide)
  have h2 := (C7_loader_errors fileMalformed dfClean).2.1 (Or.inl rfl) rfl
  have h3 := (C7_loader_errors fileEmptyRows dfNoRows).2.2.1 (Or.inl rfl) rfl (Or.inl rfl)
  have h4 := (C7_loader_errors fileEmptyRows dfNoRows).2.2.2 noParse true knn0 0
    LoadError.emptyDataset (cleanPipeline noParse true knn0 0 dfClean) h3
  exact ⟨h1, h2, h3, h4⟩

/-! ## C8: the Deduplicator -/

/-- C8: with at least one exact duplicate row, the Deduplicator removes
all duplicates keeping the first occurrence in original row order (the
result is duplicate-free, is a subsequence of the input, and still
contains every input row) and appends exactly one log entry stating the
count removed and the resulting row count; with no duplicates it
returns the input unchanged and appends no entry. -/
theorem C8_dedup (df : DF) :
    (0 < duplicatedCount df.rows →
      (removeDuplicates df).1 = ⟨df.names, df.dtypes, dropDuplicates df.rows⟩ ∧
      (removeDuplicates df).1.rows.Nodup ∧
      (removeDuplicates df).1.rows.Sublist df.rows ∧
      (∀ r ∈ df.rows, r ∈ (removeDuplicates df).1.rows) ∧
      (removeDuplicates df).2 =
        [⟨"Duplicates removed",
          toString (duplicatedCount df.rows) ++ " duplicate rows removed, " ++
            toString (dropDuplicates df.rows).length ++ " rows remaining", "high"⟩]) ∧
    (duplicatedCount df.rows = 0 → removeDuplicates df = (df, [])) := by
  constructor
  · intro h
    have hne : ¬ duplicatedCount df.rows = 0 := by omega
    have hrw : removeDuplicates df =
        (⟨df.names, df.dtypes, dropDuplicates df.rows⟩,
          [⟨"Duplicates removed",
            toString (duplicatedCount df.rows) ++ " duplicate rows removed, " ++
              toString (dropDuplicates df.rows).length ++ " rows remaining", "high"⟩]) := by
      simp only [removeDuplicates, if_neg hne]
    rw [hrw]
    refine ⟨rfl, dropDuplicates_nodup _, dropDuplicates_sublist _, ?_, rfl⟩
    intro r hr
    exact (mem_dropDuplicates _ _).mpr hr
  · intro h
    simp only [removeDuplicates, if_pos h]

/-- Witness for C8: ten rows with two exact duplicates give eight rows
and the log line of Scenario B. -/
theorem C8_dedup_witness :
    duplicatedCount dfTenRows.rows = 2 ∧
    (removeDuplicates dfTenRows).1.rows.length = 8 ∧
    (removeDuplicates dfTenRows).2 =
      [⟨"Duplicates removed", "2 duplicate rows removed, 8 rows remaining", "high"⟩] := by
  have h := (C8_dedup dfTenRows).1 (by decide)
  refine ⟨by decide, ?_, ?_⟩
  · rw [h.1]
    decide
  · rw [h.2.2.2.2]
    decide

/-! ## C9: the boolean inference rule -/

/-- C9 (amended): a non-datetime, non-numeric object column whose
lower-cased distinct non-null values form a subset of the ten boolean
tokens with at most 2 distinct members is classified boolean.  (The
four-string column of Scenario E has four distinct members and is
classified id instead; see the counterexample.) -/
theorem C9_boolean_rule (P : Parsers) (cells : List Cell)
    (hne : (cells.filter (fun c => !c.isNull)).length ≠ 0)
    (hdate : ((cells.filter (fun c => !c.isNull)).take 100).all (cellParsesDate P) = false)
    (hnum : ((cells.filter (fun c => !c.isNull)).take 100).all (cellParsesNum P) = false)
    (hsub : (((cells.filter (fun c => !c.isNull)).map
        (fun c => lowerStr (cellStr c))).dedup).all (fun s => decide (s ∈ boolTokens)) = true)
    (hcard : (((cells.filter (fun c => !c.isNull)).map
        (fun c => lowerStr (cellStr c))).dedup).length ≤ 2) :
    inferColumnType P Dtype.obj cells = CType.boolean := by
  simp only [inferColumnType]
  rw [if_neg hne]
  rw [if_neg (by decide : ¬ (Dtype.obj = Dtype.dt64))]
  rw [if_neg (by simp [hdate])]
  rw [if_neg (by decide : ¬ (Dtype.obj = Dtype.float64 ∨ Dtype.obj = Dtype.int64))]
  rw [if_neg (by simp [hnum])]
  rw [if_pos ⟨hsub, hcard⟩]

/-- Witness for the amended C9 rule at the two-token column. -/
theorem C9_boolean_rule_witness :
    inferColumnType noParse Dtype.obj boolishTwo = CType.boolean :=
  C9_boolean_rule noParse boolishTwo (by decide) (by decide) (by decide) (by decide)
    (by decide)

/-- Counterexample to C9 as stated: the column
`["true","false","yes","no"]` of Scenario E has four distinct members,
so the boolean rule does not fire and the column is classified id
(uniqueness 4/4 > 0.95), not boolean. -/
theorem C9_counterexample :
    inferColumnType noParse Dtype.obj boolishFour = CType.id ∧
    inferColumnType noParse Dtype.obj boolishFour ≠ CType.boolean := by
  with_unfolding_all decide

/-! ## C10: categorical columns have low cardinality bucket -/

/-- C10: a column classified categorical has fewer than 50 distinct
values, while the high bucket needs more than 50, so the Column
Descriptor of a categorical column always records the low bucket. -/
theorem C10_categorical_low (P : Parsers) (dt : Dtype) (cells : List Cell)
    (h : inferColumnType P dt cells = CType.categorical) :
    cardinalityBucket (nuniqueOf cells) = "low" := by
  simp only [inferColumnType] at h
  split_ifs at h with h1 h2 h3 h4 h5 h6 h7 h8 <;>
    first
      | exact absurd h (by decide)
      | (unfold cardinalityBucket nuniqueOf
         rw [if_neg (by omega)])

/-- Witness for C10 at a concrete categorical column. -/
theorem C10_categorical_low_witness :
    inferColumnType noParse Dtype.obj
        [Cell.str "a", Cell.str "b", Cell.str "ab", Cell.str "a"] = CType.categorical ∧
    cardinalityBucket (nuniqueOf
        [Cell.str "a", Cell.str "b", Cell.str "ab", Cell.str "a"]) = "low" :=
  ⟨by with_unfolding_all decide,
    C10_categorical_low noParse Dtype.obj _ (by with_unfolding_all decide)⟩

/-! ## C6: the anomaly-detection pass is detection-only -/

theorem string_append_ne (pre s t : String) (hlen : 2 ≤ pre.data.length)
    (hne : pre.data.take 2 ≠ t.data.take 2) : pre ++ s ≠ t := by
  intro h
  apply hne
  have h2 := congrArg (fun u : String => u.data.take 2) h
  simp only [String.data_append] at h2
  rw [List.take_append_of_le_length hlen] at h2
  exact h2

/-- C6: the multivariate anomaly-detection pass never modifies any cell
(the handler output does not depend on the detector oracle, and equals
the composition of the IQR clamping pass and the business-rule pass,
the only mutating passes, or the untouched input when no numeric column
exists); with fewer than 11 complete numeric rows no detection log
entry is emitted. -/
theorem C6_detection_only (iso iso2 : ℕ) (types : List CType) (df : DF) :
    (handleOutliers iso types df).1 = (handleOutliers iso2 types df).1 ∧
    ((handleOutliers iso types df).1 = (applyBusinessRules (iqrPass types df).1).1 ∨
      (numericIdxOf types df.names.length = [] ∧ (handleOutliers iso types df).1 = df)) ∧
    (completeNumericRows df (numericIdxOf types df.names.length) < 11 →
      ∀ e ∈ (handleOutliers iso types df).2,
        e.action ≠ "IsolationForest outliers detected") := by
  by_cases hni : numericIdxOf types df.names.length = []
  · have h1 : handleOutliers iso types df = (df, []) := by
      simp only [handleOutliers, if_pos hni]
    have h2 : handleOutliers iso2 types df = (df, []) := by
      simp only [handleOutliers, if_pos hni]
    refine ⟨by rw [h1, h2], Or.inr ⟨hni, by rw [h1]⟩, ?_⟩
    intro _ e he
    rw [h1] at he
    simp at he
  · have hrw : ∀ k : ℕ, handleOutliers k types df =
        ((applyBusinessRules (iqrPass types df).1).1,
          (if 10 < completeNumericRows df (numericIdxOf types df.names.length) ∧ 0 < k then
            [⟨"IsolationForest outliers detected",
              toString k ++ " anomalous rows identified", "medium"⟩]
          else []) ++ (iqrPass types df).2.1 ++ (applyBusinessRules (iqrPass types df).1).2.1 ++
          (if 0 < (iqrPass types df).2.2 + (applyBusinessRules (iqrPass types df).1).2.2 then
            [⟨"Outliers handled",
              toString ((iqrPass types df).2.2 + (applyBusinessRules (iqrPass types df).1).2.2) ++
                " outliers detected and capped/corrected", ""⟩]
          else [])) := by
      intro k
      simp only [handleOutliers, if_neg hni]
    refine ⟨by rw [hrw iso, hrw iso2], Or.inl (by rw [hrw iso]), ?_⟩
    intro hlt e he
    rw [hrw iso] at he
    have hiso : ¬ (10 < completeNumericRows df (numericIdxOf types df.names.length) ∧
        0 < iso) := by
      intro hc
      omega
    rw [if_neg hiso] at he
    simp only [List.nil_append, List.mem_append] at he
    rcases he with (he | he) | he
    · -- an IQR log entry
      simp only [iqrPass, List.mem_filterMap] at he
      obtain ⟨j, -, hj⟩ := he
      split at hj
      · rw [Option.some.injEq] at hj
        subst hj
        exact string_append_ne _ _ _ (by decide) (by decide)
      · simp at hj
    · -- a business-rule log entry
      simp only [applyBusinessRules, List.mem_append] at he
      rcases he with he | he
      · simp only [rule1Pass, List.mem_filterMap] at he
        obtain ⟨j, -, hj⟩ := he
        split at hj
        · rw [Option.some.injEq] at hj
          subst hj
          exact string_append_ne _ _ _ (by decide) (by decide)
        · simp at hj
      · simp only [rule2Pass, List.mem_filterMap] at he
        obtain ⟨j, -, hj⟩ := he
        split at hj
        · rw [Option.some.injEq] at hj
          subst hj
          exact string_append_ne _ _ _ (by decide) (by decide)
        · simp at hj
    · -- the summary entry
      split at he
      · simp only [List.mem_singleton] at he
        subst he
        show ("Outliers handled" : String) ≠ "IsolationForest outliers detected"
        decide
      · simp at he

/-- Witness for C6 at a concrete dataset with one numeric column and
fewer than 11 rows. -/
theorem C6_detection_only_witness :
    (handleOutliers 3 (schemaTypes noParse dfClean) dfClean).1 =
        (handleOutliers 0 (schemaTypes noParse dfClean) dfClean).1 ∧
    ((handleOutliers 3 (schemaTypes noParse dfClean) dfClean).1 =
        (applyBusinessRules (iqrPass (schemaTypes noParse dfClean) dfClean).1).1 ∨
      (numericIdxOf (schemaTypes noParse dfClean) dfClean.names.length = [] ∧
        (handleOutliers 3 (schemaTypes noParse dfClean) dfClean).1 = dfClean)) ∧
    (completeNumericRows dfClean
        (numericIdxOf (schemaTypes noParse dfClean) dfClean.names.length) < 11 →
      ∀ e ∈ (handleOutliers 3 (schemaTypes noParse dfClean) dfClean).2,
        e.action ≠ "IsolationForest outliers detected") :=
  C6_detection_only 3 0 (schemaTypes noParse dfClean) dfClean

/-! ## C5: sentinel replacement in quantity-like columns -/

theorem transformAux_getD (g : ℕ → ℕ → Cell → Cell) (rows : List (List Cell)) :
    ∀ i0 k, k < rows.length →
      (transformAux g i0 rows).getD k [] = mapRowAux (g (i0 + k)) 0 (rows.getD k []) := by
  induction rows with
  | nil => intro i0 k h; simp at h
  | cons r rs ih =>
    intro i0 k h
    cases k with
    | zero => simp [transformAux]
    | succ k =>
      simp only [transformAux, List.getD_cons_succ]
      rw [ih (i0 + 1) k (by simpa using h)]
      have : i0 + 1 + k = i0 + (k + 1) := by omega
      rw [this]

theorem transformCells_cellAt (g : ℕ → ℕ → Cell → Cell) (rows : List (List Cell))
    (i j : ℕ) (hi : i < rows.length) (hj : j < (rows.getD i []).length) :
    cellAt (transformCells g rows) i j = g i j (cellAt rows i j) := by
  unfold cellAt transformCells
  rw [transformAux_getD g rows 0 i hi]
  rw [mapRowAux_getD (g (0 + i)) (rows.getD i []) 0 j hj]
  simp

/-- C5 (amended): in a quantity-like numeric column on which rule 2
fires, every sentinel cell is replaced by the median of the non-sentinel
values of the column rule 2 sees (the rule-1 output), and the count is
logged at confidence medium; no sentinel remains provided that median
exists and is not itself a sentinel value.  (As stated the claim fails:
the median can be the sentinel 999, or NaN when every value is a
sentinel; see the counterexample.) -/
theorem C5_sentinel_replacement (df : DF) (j : ℕ)
    (hlen : ∀ r ∈ df.rows, r.length = df.names.length)
    (hj : j < df.names.length)
    (hq : rule2Active df j = true) :
    (∀ i, i < (rule1Pass df).1.rows.length →
      ∀ q, cellAt (rule1Pass df).1.rows i j = Cell.num q → isSentinel q = true →
        0 < colSentinelCount (rule1Pass df).1 j →
        cellAt (applyBusinessRules df).1.rows i j =
          (match colMedianNonSentinel (rule1Pass df).1 j with
           | some m => Cell.num m
           | none => Cell.null)) ∧
    (0 < colSentinelCount (rule1Pass df).1 j →
      (⟨"Suspicious values in " ++ df.nameAt j,
        toString (colSentinelCount (rule1Pass df).1 j) ++
          " values (999/9999) replaced with median", "medium"⟩ : LogEntry) ∈
        (applyBusinessRules df).2.1) ∧
    (∀ m, colMedianNonSentinel (rule1Pass df).1 j = some m → isSentinel m = false →
      ∀ q ∈ colNums (applyBusinessRules df).1 j, isSentinel q = false) := by
  have hq1 : rule2Active (rule1Pass df).1 j = true := hq
  have hlen1 : ∀ r ∈ (rule1Pass df).1.rows, r.length = df.names.length :=
    transformCells_len_forall _ df.rows df.names.length hlen
  have hrows : (applyBusinessRules df).1.rows =
      transformCells (rule2G (rule1Pass df).1) (rule1Pass df).1.rows := rfl
  refine ⟨?_, ?_, ?_⟩
  · intro i hi q hcell hsent hsus
    have hjr : j < ((rule1Pass df).1.rows.getD i []).length := by
      rw [hlen1 _ (getD_mem_of_lt _ [] i hi)]
      exact hj
    rw [hrows, transformCells_cellAt _ _ i j hi hjr, hcell]
    show rule2G (rule1Pass df).1 i j (Cell.num q) = _
    unfold rule2G
    rw [if_pos (by simp [hq1, hsus])]
    simp [hsent]
  · intro hsus
    have hmem : (⟨"Suspicious values in " ++ (rule1Pass df).1.nameAt j,
        toString (colSentinelCount (rule1Pass df).1 j) ++
          " values (999/9999) replaced with median", "medium"⟩ : LogEntry) ∈
        (rule2Pass (rule1Pass df).1).2.1 := by
      simp only [rule2Pass, List.mem_filterMap]
      refine ⟨j, ?_, ?_⟩
      · have hlen2 : (rule1Pass df).1.names.length = df.names.length := rfl
        rw [List.mem_range, hlen2]
        exact hj
      · rw [if_pos (by simp [hq1, hsus])]
    have hsplit : (applyBusinessRules df).2.1 =
        (rule1Pass df).2.1 ++ (rule2Pass (rule1Pass df).1).2.1 := rfl
    rw [hsplit]
    exact List.mem_append_right _ hmem
  · intro m hmed hm q hq2
    rw [mem_colNums, mem_col_iff] at hq2
    obtain ⟨r, hr, hcell⟩ := hq2
    rw [hrows] at hr
    have hp := transformCells_col (rule2G (rule1Pass df).1) (rule1Pass df).1.rows j
      (fun c => ∀ q2, c = Cell.num q2 → isSentinel q2 = false)
      (fun r hr => by rw [hlen1 r hr]; exact hj) ?_ r hr
    · exact hp q hcell
    · intro i hi q2 hcell2
      unfold rule2G at hcell2
      by_cases hsus : 0 < colSentinelCount (rule1Pass df).1 j
      · rw [if_pos (by simp [hq1, hsus])] at hcell2
        rcases hcc : cellAt (rule1Pass df).1.rows i j with _ | qv | s | t <;>
            rw [hcc] at hcell2
        · simp at hcell2
        · by_cases hsq : isSentinel qv = true
          · rw [show (match Cell.num qv with
                | Cell.num q =>
                    if isSentinel q then
                      match colMedianNonSentinel (rule1Pass df).1 j with
                      | some m => Cell.num m
                      | none => Cell.null
                    else Cell.num q
                | c => c)
                = if isSentinel qv then
                    (match colMedianNonSentinel (rule1Pass df).1 j with
                     | some m => Cell.num m
                     | none => Cell.null)
                  else Cell.num qv from rfl, if_pos hsq, hmed] at hcell2
            simp only [Cell.num.injEq] at hcell2
            rw [← hcell2]
            exact hm
          · rw [show (match Cell.num qv with
                | Cell.num q =>
                    if isSentinel q then
                      match colMedianNonSentinel (rule1Pass df).1 j with
                      | some m => Cell.num m
                      | none => Cell.null
                    else Cell.num q
                | c => c)
                = if isSentinel qv then
                    (match colMedianNonSentinel (rule1Pass df).1 j with
                     | some m => Cell.num m
                     | none => Cell.null)
                  else Cell.num qv from rfl, if_neg hsq] at hcell2
            simp only [Cell.num.injEq] at hcell2
            rw [← hcell2]
            simpa using hsq
        · simp at hcell2
        · simp at hcell2
      · rw [if_neg (by simp [hsus])] at hcell2
        have hmemq : q2 ∈ colNums (rule1Pass df).1 j := by
          rw [mem_colNums, mem_col_iff]
          exact ⟨(rule1Pass df).1.rows.getD i [], getD_mem_of_lt _ [] i hi, hcell2⟩
        have hz : colSentinelCount (rule1Pass df).1 j = 0 := by omega
        unfold colSentinelCount at hz
        rw [List.countP_eq_zero] at hz
        simpa using hz q2 hmemq

/-- Witness for the amended C5 at a quantity column with one sentinel
999 among the values 1, 2, 3 (median 2, not a sentinel). -/
theorem C5_sentinel_replacement_witness :
    rule2Active (⟨["qty"], [Dtype.int64],
        [[Cell.num 1], [Cell.num 2], [Cell.num 3], [Cell.num 999]]⟩ : DF) 0 = true ∧
    (0 < colSentinelCount
        (rule1Pass ⟨["qty"], [Dtype.int64],
          [[Cell.num 1], [Cell.num 2], [Cell.num 3], [Cell.num 999]]⟩).1 0 →
      (⟨"Suspicious values in " ++
          (⟨["qty"], [Dtype.int64],
            [[Cell.num 1], [Cell.num 2], [Cell.num 3], [Cell.num 999]]⟩ : DF).nameAt 0,
        toString (colSentinelCount
          (rule1Pass ⟨["qty"], [Dtype.int64],
            [[Cell.num 1], [Cell.num 2], [Cell.num 3], [Cell.num 999]]⟩).1 0) ++
          " values (999/9999) replaced with median", "medium"⟩ : LogEntry) ∈
        (applyBusinessRules ⟨["qty"], [Dtype.int64],
          [[Cell.num 1], [Cell.num 2], [Cell.num 3], [Cell.num 999]]⟩).2.1) ∧
    (∀ q ∈ colNums (applyBusinessRules ⟨["qty"], [Dtype.int64],
        [[Cell.num 1], [Cell.num 2], [Cell.num 3], [Cell.num 999]]⟩).1 0,
      isSentinel q = false) := by
  have h := C5_sentinel_replacement
    ⟨["qty"], [Dtype.int64], [[Cell.num 1], [Cell.num 2], [Cell.num 3], [Cell.num 999]]⟩ 0
    (by with_unfolding_all decide) (by decide) (by with_unfolding_all decide)
  refine ⟨by with_unfolding_all decide, h.2.1, ?_⟩
  exact h.2.2 2 (by with_unfolding_all decide) (by with_unfolding_all decide)

/-- Counterexample to C5 as stated: in the quantity column
`[998, 1000, 999]` the median of the non-sentinel values 998 and 1000
is 999, so after the business-rule pass the sentinel value 999 still
appears in the column. -/
theorem C5_counterexample :
    quantityLike "qty" = true ∧
    (applyBusinessRules dfQtyMedian999).1.rows =
      [[Cell.num 998], [Cell.num 1000], [Cell.num 999]] ∧
    (999 : ℚ) ∈ colNums (applyBusinessRules dfQtyMedian999).1 0 ∧
    isSentinel 999 = true := by
  with_unfolding_all decide

/-! ## C4: idempotence on an already-clean dataset -/

theorem profileData_missing (df : DF) :
    (profileData df).missingCellsN = missingCells df := rfl

theorem profileData_dup (df : DF) :
    (profileData df).duplicateRows = duplicatedCount df.rows := rfl

theorem cellAt_mem_col (df : DF) (i j : ℕ) (hi : i < df.rows.length) :
    cellAt df.rows i j ∈ df.col j := by
  rw [mem_col_iff]
  exact ⟨df.rows.getD i [], getD_mem_of_lt _ [] i hi, rfl⟩

theorem mem_numericIdxOf (types : List CType) (n j : ℕ) :
    j ∈ numericIdxOf types n ↔
      j < n ∧ types.getD j CType.unknown = CType.numeric := by
  unfold numericIdxOf
  rw [List.mem_filter, List.mem_range]
  simp

theorem iqrPass_id (types : List CType) (df : DF)
    (hlen : ∀ r ∈ df.rows, r.length = df.names.length)
    (hiqr : ∀ j, j < df.names.length → iqrActive types df j = true →
      ∀ q ∈ colNums df j, colIqrLb df j ≤ q ∧ q ≤ colIqrUb df j) :
    iqrPass types df = (df, [], 0) := by
  have hout : ∀ j, j < df.names.length → iqrActive types df j = true →
      colOutCount df j = 0 := by
    intro j hj ha
    unfold colOutCount
    rw [List.countP_eq_zero]
    intro q hq
    have hb := hiqr j hj ha q hq
    simp only [Bool.or_eq_true, decide_eq_true_eq, not_or]
    exact ⟨not_lt.mpr hb.1, not_lt.mpr hb.2⟩
  have h1 : (iqrPass types df).1 = df := by
    show (⟨df.names, df.dtypes, transformCells (iqrG types df) df.rows⟩ : DF) = df
    have hrows : transformCells (iqrG types df) df.rows = df.rows := by
      apply transformCells_id
      intro i k hi hk
      have hk2 : k < df.names.length := by
        rw [← hlen _ (getD_mem_of_lt _ [] i hi)]
        exact hk
      by_cases ha : iqrActive types df k = true
      · unfold iqrG
        rw [if_pos ha]
        rcases hcc : cellAt df.rows i k with _ | q | s | t
        · rfl
        · show (if q < colIqrLb df k then Cell.num (colIqrLb df k)
              else if colIqrUb df k < q then Cell.num (colIqrUb df k)
              else Cell.num q) = Cell.num q
          have hq : q ∈ colNums df k := by
            rw [mem_colNums, ← hcc]
            exact cellAt_mem_col df i k hi
          have hb := hiqr k hk2 ha q hq
          rw [if_neg (not_lt.mpr hb.1), if_neg (not_lt.mpr hb.2)]
        · rfl
        · rfl
      · unfold iqrG
        rw [if_neg ha]
    rw [hrows]
  have h2 : (iqrPass types df).2.1 = [] := by
    simp only [iqrPass]
    rw [List.filterMap_eq_nil]
    intro j hj
    have hj2 : j < df.names.length := ((mem_numericIdxOf _ _ _).mp hj).1
    by_cases ha : iqrActive types df j = true
    · rw [hout j hj2 ha]
      simp [ha]
    · simp [ha]
  have h3 : (iqrPass types df).2.2 = 0 := by
    simp only [iqrPass]
    apply List.sum_eq_zero
    intro x hx
    rw [List.mem_map] at hx
    obtain ⟨j, hj, rfl⟩ := hx
    have hj2 : j < df.names.length := ((mem_numericIdxOf _ _ _).mp hj).1
    by_cases ha : iqrActive types df j = true
    · rw [if_pos ha, hout j hj2 ha]
    · rw [if_neg ha]
  calc iqrPass types df
      = ((iqrPass types df).1, (iqrPass types df).2.1, (iqrPass types df).2.2) := rfl
    _ = (df, [], 0) := by rw [h1, h2, h3]

theorem rule1Pass_id (df : DF)
    (hlen : ∀ r ∈ df.rows, r.length = df.names.length)
    (hneg : ∀ j, j < df.names.length → rule1Active df j = true →
      ∀ q ∈ colNums df j, 0 ≤ q) :
    rule1Pass df = (df, [], 0) := by
  have hcnt : ∀ j, j < df.names.length → rule1Active df j = true →
      colNegCount df j = 0 := by
    intro j hj ha
    unfold colNegCount
    rw [List.countP_eq_zero]
    intro q hq
    simp only [decide_eq_true_eq]
    exact not_lt.mpr (hneg j hj ha q hq)
  have h1 : (rule1Pass df).1 = df := by
    show (⟨df.names, df.dtypes, transformCells (rule1G df) df.rows⟩ : DF) = df
    have hrows : transformCells (rule1G df) df.rows = df.rows := by
      apply transformCells_id
      intro i k hi hk
      have hk2 : k < df.names.length := by
        rw [← hlen _ (getD_mem_of_lt _ [] i hi)]
        exact hk
      by_cases ha : rule1Active df k = true
      · unfold rule1G
        rw [if_pos ha]
        rcases hcc : cellAt df.rows i k with _ | q | s | t
        · rfl
        · show (if q < 0 then Cell.num 0 else Cell.num q) = Cell.num q
          have hq : q ∈ colNums df k := by
            rw [mem_colNums, ← hcc]
            exact cellAt_mem_col df i k hi
          rw [if_neg (not_lt.mpr (hneg k hk2 ha q hq))]
        · rfl
        · rfl
      · unfold rule1G
        rw [if_neg ha]
    rw [hrows]
  have h2 : (rule1Pass df).2.1 = [] := by
    simp only [rule1Pass]
    rw [List.filterMap_eq_nil]
    intro j hj
    rw [List.mem_range] at hj
    by_cases ha : rule1Active df j = true
    · rw [hcnt j hj ha]
      simp [ha]
    · simp [ha]
  have h3 : (rule1Pass df).2.2 = 0 := by
    simp only [rule1Pass]
    apply List.sum_eq_zero
    intro x hx
    rw [List.mem_map] at hx
    obtain ⟨j, hj, rfl⟩ := hx
    rw [List.mem_range] at hj
    by_cases ha : rule1Active df j = true
    · rw [if_pos ha, hcnt j hj ha]
    · rw [if_neg ha]
  calc rule1Pass df
      = ((rule1Pass df).1, (rule1Pass df).2.1, (rule1Pass df).2.2) := rfl
    _ = (df, [], 0) := by rw [h1, h2, h3]

theorem rule2Pass_id (df : DF)
    (hlen : ∀ r ∈ df.rows, r.length = df.names.length)
    (hsent : ∀ j, j < df.names.length → rule2Active df j = true →
      ∀ q ∈ colNums df j, isSentinel q = false) :
    rule2Pass df = (df, [], 0) := by
  have hcnt : ∀ j, j < df.names.length → rule2Active df j = true →
      colSentinelCount df j = 0 := by
    intro j hj ha
    unfold colSentinelCount
    rw [List.countP_eq_zero]
    intro q hq
    simp [hsent j hj ha q hq]
  have hcond : ∀ j, j < df.names.length →
      (rule2Active df j && decide (0 < colSentinelCount df j)) = false := by
    intro j hj
    by_cases ha : rule2Active df j = true
    · rw [hcnt j hj ha]
      simp [ha]
    · simp [ha]
  have h1 : (rule2Pass df).1 = df := by
    show (⟨df.names, df.dtypes, transformCells (rule2G df) df.rows⟩ : DF) = df
    have hrows : transformCells (rule2G df) df.rows = df.rows := by
      apply transformCells_id
      intro i k hi hk
      have hk2 : k < df.names.length := by
        rw [← hlen _ (getD_mem_of_lt _ [] i hi)]
        exact hk
      unfold rule2G
      rw [if_neg (by rw [hcond k hk2]; simp)]
    rw [hrows]
  have h2 : (rule2Pass df).2.1 = [] := by
    simp only [rule2Pass]
    rw [List.filterMap_eq_nil]
    intro j hj
    rw [List.mem_range] at hj
    rw [if_neg (by rw [hcond j hj]; simp)]
  have h3 : (rule2Pass df).2.2 = 0 := by
    simp only [rule2Pass]
    apply List.sum_eq_zero
    intro x hx
    rw [List.mem_map] at hx
    obtain ⟨j, hj, rfl⟩ := hx
    rw [List.mem_range] at hj
    by_cases ha : rule2Active df j = true
    · rw [if_pos ha, hcnt j hj ha]
    · rw [if_neg ha]
  calc rule2Pass df
      = ((rule2Pass df).1, (rule2Pass df).2.1, (rule2Pass df).2.2) := rfl
    _ = (df, [], 0) := by rw [h1, h2, h3]

theorem handleOutliers_id (iso : ℕ) (types : List CType) (df : DF)
    (hlen : ∀ r ∈ df.rows, r.length = df.names.length)
    (hiqr : ∀ j, j < df.names.length → iqrActive types df j = true →
      ∀ q ∈ colNums df j, colIqrLb df j ≤ q ∧ q ≤ colIqrUb df j)
    (hneg : ∀ j, j < df.names.length → rule1Active df j = true →
      ∀ q ∈ colNums df j, 0 ≤ q)
    (hsent : ∀ j, j < df.names.length → rule2Active df j = true →
      ∀ q ∈ colNums df j, isSentinel q = false)
    (hiso : completeNumericRows df (numericIdxOf types df.names.length) < 11 ∨ iso = 0) :
    handleOutliers iso types df = (df, []) := by
  by_cases hni : numericIdxOf types df.names.length = []
  · simp only [handleOutliers, if_pos hni]
  · have hiq := iqrPass_id types df hlen hiqr
    have hb : applyBusinessRules df = (df, ([] : List LogEntry), 0) := by
      have hr1 := rule1Pass_id df hlen hneg
      have hr2 := rule2Pass_id df hlen hsent
      have e0 : (rule1Pass df).1 = df := by rw [hr1]
      have e1 : (rule1Pass df).2.1 = [] := by rw [hr1]
      have e2 : (rule1Pass df).2.2 = 0 := by rw [hr1]
      have f0 : (rule2Pass df).1 = df := by rw [hr2]
      have f1 : (rule2Pass df).2.1 = [] := by rw [hr2]
      have f2 : (rule2Pass df).2.2 = 0 := by rw [hr2]
      calc applyBusinessRules df
          = ((rule2Pass (rule1Pass df).1).1,
             (rule1Pass df).2.1 ++ (rule2Pass (rule1Pass df).1).2.1,
             (rule1Pass df).2.2 + (rule2Pass (rule1Pass df).1).2.2) := rfl
        _ = (df, ([] : List LogEntry), 0) := by
            rw [e0, e1, e2, f0, f1, f2]
            simp
    have hisoc : ¬ (10 < completeNumericRows df (numericIdxOf types df.names.length) ∧
        0 < iso) := by
      intro hc
      omega
    simp only [handleOutliers, if_neg hni, if_neg hisoc]
    rw [hiq, hb]
    simp

/-- C4: on an already-clean dataset (zero missing cells, zero duplicate
rows, no IQR-fence violations, no business-rule violations) the full
pipeline returns the dataset bit-for-bit unchanged and the cleaning log
holds exactly the four trivial bookkeeping entries (loaded, schema,
initial quality, final quality) — no corrective entry and no
improvement entry.  The anomaly detector is detection-only; the run is
modelled with it quiet (fewer than 11 complete numeric rows, or zero
rows flagged by the third-party scorer). -/
theorem C4_idempotent (P : Parsers) (knnOk : Bool) (knn : ℕ → ℕ → ℚ) (iso : ℕ)
    (df0 : DF)
    (hlen : ∀ r ∈ df0.rows, r.length = df0.names.length)
    (hmiss : missingCells df0 = 0)
    (hdup : duplicatedCount df0.rows = 0)
    (hiqr : ∀ j, j < df0.names.length →
      iqrActive (schemaTypes P df0) df0 j = true →
      ∀ q ∈ colNums df0 j, colIqrLb df0 j ≤ q ∧ q ≤ colIqrUb df0 j)
    (hneg : ∀ j, j < df0.names.length → rule1Active df0 j = true →
      ∀ q ∈ colNums df0 j, 0 ≤ q)
    (hsent : ∀ j, j < df0.names.length → rule2Active df0 j = true →
      ∀ q ∈ colNums df0 j, isSentinel q = false)
    (hiso : completeNumericRows df0
        (numericIdxOf (schemaTypes P df0) df0.names.length) < 11 ∨ iso = 0) :
    (cleanPipeline P knnOk knn iso df0).df = df0 ∧
    (cleanPipeline P knnOk knn iso df0).log =
      [loadedEntry df0, schemaEntry df0,
       qualityEntry "Initial data quality" (profileData df0).qualityScore,
       qualityEntry "Final data quality" (profileData df0).qualityScore] := by
  have h1 : ¬ 0 < (profileData df0).missingCellsN := by
    rw [profileData_missing, hmiss]
    omega
  have h2 := handleOutliers_id iso (schemaTypes P df0) df0 hlen hiqr hneg hsent hiso
  have h3 : ¬ 0 < duplicatedCount df0.rows := by omega
  have himp : ¬ (0 : ℚ) <
      (profileData df0).qualityScore - (profileData df0).qualityScore := by
    simp
  constructor
  · show (cleanPipeline P knnOk knn iso df0).df = df0
    simp only [cleanPipeline, if_neg h1]
    rw [h2]
    simp only [if_neg h3]
  · show (cleanPipeline P knnOk knn iso df0).log = _
    simp only [cleanPipeline, if_neg h1]
    rw [h2]
    simp only [if_neg h3, if_neg himp]
    simp

/-- Witness for C4 at a concrete clean dataset with a revenue column, a
quantity column and a label column. -/
theorem C4_idempotent_witness :
    (cleanPipeline noParse true knn0 5 dfClean).df = dfClean ∧
    (cleanPipeline noParse true knn0 5 dfClean).log =
      [loadedEntry dfClean, schemaEntry dfClean,
       qualityEntry "Initial data quality" (profileData dfClean).qualityScore,
       qualityEntry "Final data quality" (profileData dfClean).qualityScore] :=
  C4_idempotent noParse true knn0 5 dfClean
    (by decide) (by decide) (by decide)
    (by with_unfolding_all decide) (by with_unfolding_all decide)
    (by with_unfolding_all decide) (Or.inl (by with_unfolding_all decide))

/-! ## C2 and C3: missingness and duplication through a full run -/

theorem transformCells_col_preserve (g : ℕ → ℕ → Cell → Cell)
    (rows : List (List Cell)) (j : ℕ)
    (hlen : ∀ r ∈ rows, j < r.length)
    (hcol : noNullCol rows j)
    (hg : ∀ i c, c.isNull = false → (g i j c).isNull = false) :
    noNullCol (transformCells g rows) j :=
  transformCells_col g rows j (fun c => c.isNull = false) hlen
    (fun i hi => hg i _ (hcol _ (getD_mem_of_lt _ [] i hi)))

theorem imputeG_preserves (P : Parsers) (knnOk : Bool) (knn : ℕ → ℕ → ℚ)
    (types : List CType) (df : DF) :
    ∀ i j c, c.isNull = false →
      (imputeG P knnOk knn types df i j c).isNull = false := by
  intro i j c h
  unfold imputeG
  rcases c with _ | q | s | t
  · exact absurd h (by decide)
  · by_cases hn : j ∈ imputeNumericIdx types df
    · cases knnOk <;> simp [hn, Cell.isNull]
    · by_cases hc : j ∈ imputeCatIdx types df
      · rcases hmode : imputeModeAt df j with _ | m <;> simp [hn, hc, hmode, Cell.isNull]
      · simp [hn, hc, Cell.isNull]
  · by_cases hn : j ∈ imputeNumericIdx types df
    · cases knnOk <;> simp [hn, Cell.isNull]
    · by_cases hc : j ∈ imputeCatIdx types df
      · rcases hmode : imputeModeAt df j with _ | m <;> simp [hn, hc, hmode, Cell.isNull]
      · simp [hn, hc, Cell.isNull]
  · by_cases hn : j ∈ imputeNumericIdx types df
    · cases knnOk <;> simp [hn, Cell.isNull]
    · by_cases hc : j ∈ imputeCatIdx types df
      · rcases hmode : imputeModeAt df j with _ | m <;> simp [hn, hc, hmode, Cell.isNull]
      · simp [hn, hc, Cell.isNull]

theorem iqrG_preserves (types : List CType) (df : DF) :
    ∀ i j c, c.isNull = false → ((iqrG types df) i j c).isNull = false := by
  intro i j c h
  unfold iqrG
  by_cases ha : iqrActive types df j = true
  · rw [if_pos ha]
    rcases c with _ | q | s | t
    · exact absurd h (by decide)
    · show (if q < colIqrLb df j then Cell.num (colIqrLb df j)
          else if colIqrUb df j < q then Cell.num (colIqrUb df j)
          else Cell.num q).isNull = false
      split
      · rfl
      · split <;> rfl
    · rfl
    · rfl
  · rw [if_neg ha]
    exact h

theorem rule1G_preserves (df : DF) :
    ∀ i j c, c.isNull = false → ((rule1G df) i j c).isNull = false := by
  intro i j c h
  unfold rule1G
  by_cases ha : rule1Active df j = true
  · rw [if_pos ha]
    rcases c with _ | q | s | t
    · exact absurd h (by decide)
    · show (if q < 0 then Cell.num 0 else Cell.num q).isNull = false
      split <;> rfl
    · rfl
    · rfl
  · rw [if_neg ha]
    exact h

theorem rule2G_preserves (df : DF) (j : ℕ)
    (hmed : rule2Active df j = true → 0 < colSentinelCount df j →
      (colMedianNonSentinel df j).isSome = true) :
    ∀ i c, c.isNull = false → ((rule2G df) i j c).isNull = false := by
  intro i c h
  unfold rule2G
  by_cases hcond : (rule2Active df j && decide (0 < colSentinelCount df j)) = true
  · rw [if_pos hcond]
    rcases c with _ | q | s | t
    · exact absurd h (by decide)
    · show (if isSentinel q = true then
          (match colMedianNonSentinel df j with
           | some m => Cell.num m
           | none => Cell.null)
          else Cell.num q).isNull = false
      by_cases hs : isSentinel q = true
      · rw [if_pos hs]
        have hboth : rule2Active df j = true ∧ 0 < colSentinelCount df j := by
          simpa using hcond
        obtain ⟨m, hm⟩ := Option.isSome_iff_exists.mp (hmed hboth.1 hboth.2)
        rw [hm]
        rfl
      · rw [if_neg hs]
        rfl
    · rfl
    · rfl
  · rw [if_neg hcond]
    exact h

theorem schemaTypes_getD (P : Parsers) (df : DF) (j : ℕ)
    (hj : j < df.names.length) :
    (schemaTypes P df).getD j CType.unknown =
      inferColumnType P (df.dtypeAt j) (df.col j) := by
  unfold schemaTypes
  rw [getD_eq_getElem_of_lt _ _ j (by simpa using hj)]
  simp

theorem inferColumnType_nonNull_ne (P : Parsers) (dt : Dtype) (cells : List Cell)
    (h : inferColumnType P dt cells ≠ CType.unknown) :
    cells.filter (fun c => !c.isNull) ≠ [] := by
  intro hnil
  apply h
  simp only [inferColumnType]
  rw [if_pos (by rw [hnil]; rfl)]

theorem imputable_ne_unknown (t : CType) (h : imputable t = true) :
    t ≠ CType.unknown := by
  cases t <;> simp_all [imputable, eligibleCat]

theorem mem_imputeNumericIdx (types : List CType) (df : DF) (j : ℕ) :
    j ∈ imputeNumericIdx types df ↔
      j < df.names.length ∧ types.getD j CType.unknown = CType.numeric ∧
        0 < colNullCount df j := by
  unfold imputeNumericIdx
  rw [List.mem_filter, List.mem_range]
  simp [and_assoc]

theorem mem_imputeCatIdx (types : List CType) (df : DF) (j : ℕ) :
    j ∈ imputeCatIdx types df ↔
      j < df.names.length ∧ eligibleCat (types.getD j CType.unknown) = true ∧
        0 < colNullCount df j := by
  unfold imputeCatIdx
  rw [List.mem_filter, List.mem_range]
  simp [and_assoc]

theorem handleMissingValues_names (P : Parsers) (knnOk : Bool) (knn : ℕ → ℕ → ℚ)
    (types : List CType) (df : DF) :
    (handleMissingValues P knnOk knn types df).1.names = df.names := by
  simp only [handleMissingValues]
  split <;> rfl

theorem imputeOut_names (P : Parsers) (knnOk : Bool) (knn : ℕ → ℕ → ℚ) (df0 : DF) :
    (imputeOut P knnOk knn df0).names = df0.names := by
  unfold imputeOut
  split
  · exact handleMissingValues_names P knnOk knn _ df0
  · rfl

theorem imputeOut_rowlen (P : Parsers) (knnOk : Bool) (knn : ℕ → ℕ → ℚ) (df0 : DF)
    (n : ℕ) (h : ∀ r ∈ df0.rows, r.length = n) :
    ∀ r ∈ (imputeOut P knnOk knn df0).rows, r.length = n := by
  unfold imputeOut
  split
  · rename_i hmiss
    have hne : ¬ missingCells df0 = 0 := by omega
    have hrows : (handleMissingValues P knnOk knn (schemaTypes P df0) df0).1.rows =
        transformCells (imputeG P knnOk knn (schemaTypes P df0) df0) df0.rows := by
      simp only [handleMissingValues, if_neg hne]
    rw [hrows]
    exact transformCells_len_forall _ _ _ h
  · exact h

theorem imputeOut_noNull (P : Parsers) (knnOk : Bool) (knn : ℕ → ℕ → ℚ) (df0 : DF)
    (j : ℕ)
    (hlen : ∀ r ∈ df0.rows, r.length = df0.names.length)
    (hj : j < df0.names.length)
    (helig : imputable ((schemaTypes P df0).getD j CType.unknown) = true) :
    noNullCol (imputeOut P knnOk knn df0).rows j := by
  have hlenj : ∀ r ∈ df0.rows, j < r.length := fun r hr => by
    rw [hlen r hr]; exact hj
  unfold imputeOut
  split
  · rename_i hmiss
    have hne : ¬ missingCells df0 = 0 := by omega
    have hrows : (handleMissingValues P knnOk knn (schemaTypes P df0) df0).1.rows =
        transformCells (imputeG P knnOk knn (schemaTypes P df0) df0) df0.rows := by
      simp only [handleMissingValues, if_neg hne]
    rw [hrows]
    by_cases hn : j ∈ imputeNumericIdx (schemaTypes P df0) df0
    · apply transformCells_col _ _ _ (fun c => c.isNull = false) hlenj
      intro i hi
      have hall : ∀ c, (imputeG P knnOk knn (schemaTypes P df0) df0 i j c).isNull
          = false := by
        intro c
        unfold imputeG
        rcases c <;> cases knnOk <;> simp [hn, Cell.isNull]
      exact hall _
    · by_cases hc : j ∈ imputeCatIdx (schemaTypes P df0) df0
      · have htype := (mem_imputeCatIdx _ _ _).mp hc
        have hne2 : (df0.col j).filter (fun c => !c.isNull) ≠ [] := by
          apply inferColumnType_nonNull_ne P (df0.dtypeAt j)
          rw [← schemaTypes_getD P df0 j hj]
          intro hu
          rw [hu] at htype
          simp [eligibleCat] at htype
        obtain ⟨m, hm, hmm⟩ := modeOf_spec _ hne2
        have hmode : imputeModeAt df0 j = some m := hm
        have hmnn : m.isNull = false := by
          have := (List.mem_filter.mp hmm).2
          simpa using this
        apply transformCells_col _ _ _ (fun c => c.isNull = false) hlenj
        intro i hi
        have hall : ∀ c, (imputeG P knnOk knn (schemaTypes P df0) df0 i j c).isNull
            = false := by
          intro c
          unfold imputeG
          rw [if_neg hn, if_pos hc]
          rcases c with _ | q | s | t
          · rw [hmode]
            exact hmnn
          · rfl
          · rfl
          · rfl
        exact hall _
      · have h0 : colNullCount df0 j = 0 := by
          by_contra hpos
          have hpos2 : 0 < colNullCount df0 j := Nat.pos_of_ne_zero hpos
          have hdisj : (schemaTypes P df0).getD j CType.unknown = CType.numeric ∨
              eligibleCat ((schemaTypes P df0).getD j CType.unknown) = true := by
            simpa [imputable] using helig
          rcases hdisj with hnum | hcat
          · exact hn ((mem_imputeNumericIdx _ _ _).mpr ⟨hj, hnum, hpos2⟩)
          · exact hc ((mem_imputeCatIdx _ _ _).mpr ⟨hj, hcat, hpos2⟩)
        have hnn := (colNullCount_zero_iff df0 j).mp h0
        apply transformCells_col_preserve _ _ _ hlenj hnn
        intro i c hcnn
        unfold imputeG
        rw [if_neg hn, if_neg hc]
        exact hcnn
  · rename_i hmiss
    have h0 : missingCells df0 = 0 := by omega
    exact noNullCol_of_missing_zero df0 h0 j hlenj

theorem removeDuplicates_names (df : DF) :
    (removeDuplicates df).1.names = df.names := by
  simp only [removeDuplicates]
  split <;> rfl

theorem removeDuplicates_mem (df : DF) :
    ∀ r ∈ (removeDuplicates df).1.rows, r ∈ df.rows := by
  simp only [removeDuplicates]
  split
  · exact fun r hr => hr
  · exact fun r hr => (mem_dropDuplicates _ _).mp hr

theorem removeDuplicates_rows_of_pos (df : DF)
    (hd : ¬ duplicatedCount df.rows = 0) :
    (removeDuplicates df).1.rows = dropDuplicates df.rows := by
  simp only [removeDuplicates, if_neg hd]

theorem applyBusinessRules_names (df : DF) :
    (applyBusinessRules df).1.names = df.names := rfl

theorem handleOutliers_df (iso : ℕ) (types : List CType) (df : DF) :
    (handleOutliers iso types df).1 =
      (if numericIdxOf types df.names.length = [] then df
       else (applyBusinessRules (iqrPass types df).1).1) := by
  by_cases hni : numericIdxOf types df.names.length = []
  · simp only [handleOutliers, if_pos hni]
  · simp only [handleOutliers, if_neg hni]

theorem handleOutliers_names (iso : ℕ) (types : List CType) (df : DF) :
    (handleOutliers iso types df).1.names = df.names := by
  rw [handleOutliers_df]
  split <;> rfl

theorem handleOutliers_rowlen (iso : ℕ) (types : List CType) (df : DF) (n : ℕ)
    (h : ∀ r ∈ df.rows, r.length = n) :
    ∀ r ∈ (handleOutliers iso types df).1.rows, r.length = n := by
  rw [handleOutliers_df]
  split
  · exact h
  · exact transformCells_len_forall _ _ _
      (transformCells_len_forall _ _ _ (transformCells_len_forall _ _ _ h))

theorem handleOutliers_noNull (iso : ℕ) (types : List CType) (df : DF) (j : ℕ)
    (hlen : ∀ r ∈ df.rows, r.length = df.names.length)
    (hj : j < df.names.length)
    (hcol : noNullCol df.rows j)
    (hmed : rule2Active (rule1Pass (iqrPass types df).1).1 j = true →
      0 < colSentinelCount (rule1Pass (iqrPass types df).1).1 j →
      (colMedianNonSentinel (rule1Pass (iqrPass types df).1).1 j).isSome = true) :
    noNullCol (handleOutliers iso types df).1.rows j := by
  rw [handleOutliers_df]
  split
  · exact hcol
  · have hlenj : ∀ r ∈ df.rows, j < r.length := fun r hr => by
      rw [hlen r hr]; exact hj
    have h1 : noNullCol (iqrPass types df).1.rows j :=
      transformCells_col_preserve _ _ _ hlenj hcol
        (fun i c hc => iqrG_preserves types df i j c hc)
    have hlen1 : ∀ r ∈ (iqrPass types df).1.rows, j < r.length := by
      have := transformCells_len_forall (iqrG types df) df.rows df.names.length hlen
      intro r hr
      rw [this r hr]
      exact hj
    have h2 : noNullCol (rule1Pass (iqrPass types df).1).1.rows j :=
      transformCells_col_preserve _ _ _ hlen1 h1
        (fun i c hc => rule1G_preserves _ i j c hc)
    have hlen2 : ∀ r ∈ (rule1Pass (iqrPass types df).1).1.rows, j < r.length := by
      have := transformCells_len_forall (rule1G (iqrPass types df).1)
        (iqrPass types df).1.rows df.names.length
        (transformCells_len_forall _ _ _ hlen)
      intro r hr
      rw [this r hr]
      exact hj
    exact transformCells_col_preserve _ _ _ hlen2 h2
      (fun i c hc => rule2G_preserves _ j hmed i c hc)

theorem cleanPipeline_df (P : Parsers) (knnOk : Bool) (knn : ℕ → ℕ → ℚ) (iso : ℕ)
    (df0 : DF) :
    (cleanPipeline P knnOk knn iso df0).df =
      (if 0 < duplicatedCount (handleOutliers iso (schemaTypes P df0)
          (imputeOut P knnOk knn df0)).1.rows
       then (removeDuplicates (handleOutliers iso (schemaTypes P df0)
          (imputeOut P knnOk knn df0)).1).1
       else (handleOutliers iso (schemaTypes P df0) (imputeOut P knnOk knn df0)).1) := by
  have hio : (if 0 < (profileData df0).missingCellsN
      then handleMissingValues P knnOk knn (schemaTypes P df0) df0
      else (df0, ([] : List LogEntry))).1 = imputeOut P knnOk knn df0 := by
    unfold imputeOut
    by_cases h : 0 < missingCells df0
    · rw [if_pos h, if_pos (show 0 < (profileData df0).missingCellsN from h)]
    · rw [if_neg h, if_neg (show ¬ 0 < (profileData df0).missingCellsN from h)]
  simp only [cleanPipeline]
  rw [hio]
  split <;> rfl

theorem rule2Input_names (P : Parsers) (knnOk : Bool) (knn : ℕ → ℕ → ℚ) (df0 : DF) :
    (rule2Input P knnOk knn df0).names = df0.names := by
  show (imputeOut P knnOk knn df0).names = df0.names
  exact imputeOut_names P knnOk knn df0

theorem eligibleC2_imputable (t : CType) (h : eligibleC2 t = true) :
    imputable t = true := by
  cases t <;> simp_all [eligibleC2, imputable, eligibleCat]

/-- C2 (amended): after a full pipeline run, every column whose inferred
type is numeric, categorical or boolean is free of missing cells, and
the result holds no exact duplicate rows — provided that whenever the
sentinel-replacement rule fires on a quantity-like numeric column, that
column still holds a non-sentinel value (otherwise the rule writes NaN
back, see the counterexample).  The duplicate bound `d < row_count` of
the claim always holds and is not needed. -/
theorem C2_pipeline_missing_dups (P : Parsers) (knnOk : Bool) (knn : ℕ → ℕ → ℚ)
    (iso : ℕ) (df0 : DF)
    (hlen : ∀ r ∈ df0.rows, r.length = df0.names.length)
    (hprov : sentinelProviso (rule2Input P knnOk knn df0)) :
    (∀ j, j < df0.names.length →
      eligibleC2 ((schemaTypes P df0).getD j CType.unknown) = true →
      noNullCol (cleanPipeline P knnOk knn iso df0).df.rows j) ∧
    duplicatedCount (cleanPipeline P knnOk knn iso df0).df.rows = 0 := by
  have hdf := cleanPipeline_df P knnOk knn iso df0
  constructor
  · intro j hj helig
    have helig2 : imputable ((schemaTypes P df0).getD j CType.unknown) = true :=
      eligibleC2_imputable _ helig
    have hI : noNullCol (imputeOut P knnOk knn df0).rows j :=
      imputeOut_noNull P knnOk knn df0 j hlen hj helig2
    have hlenI : ∀ r ∈ (imputeOut P knnOk knn df0).rows,
        r.length = (imputeOut P knnOk knn df0).names.length := by
      rw [imputeOut_names]
      exact imputeOut_rowlen P knnOk knn df0 _ hlen
    have hjI : j < (imputeOut P knnOk knn df0).names.length := by
      rw [imputeOut_names]
      exact hj
    have hmed : rule2Active
        (rule1Pass (iqrPass (schemaTypes P df0) (imputeOut P knnOk knn df0)).1).1 j
          = true →
        0 < colSentinelCount
          (rule1Pass (iqrPass (schemaTypes P df0) (imputeOut P knnOk knn df0)).1).1 j →
        (colMedianNonSentinel
          (rule1Pass (iqrPass (schemaTypes P df0) (imputeOut P knnOk knn df0)).1).1
            j).isSome = true := by
      intro ha hs
      have hjB : j < (rule2Input P knnOk knn df0).names.length := by
        rw [rule2Input_names]
        exact hj
      exact hprov j hjB ha hs
    have hO : noNullCol (handleOutliers iso (schemaTypes P df0)
        (imputeOut P knnOk knn df0)).1.rows j :=
      handleOutliers_noNull iso (schemaTypes P df0) (imputeOut P knnOk knn df0) j
        hlenI hjI hI hmed
    rw [hdf]
    split
    · intro r hr
      exact hO r (removeDuplicates_mem _ r hr)
    · exact hO
  · rw [hdf]
    split
    · rename_i hdup
      rw [removeDuplicates_rows_of_pos _ (by omega)]
      exact duplicatedCount_dropDuplicates _
    · rename_i hdup
      omega

theorem cleanPipeline_dup_zero (P : Parsers) (knnOk : Bool) (knn : ℕ → ℕ → ℚ)
    (iso : ℕ) (df0 : DF) :
    duplicatedCount (cleanPipeline P knnOk knn iso df0).df.rows = 0 := by
  rw [cleanPipeline_df]
  split
  · rename_i hdup
    rw [removeDuplicates_rows_of_pos _ (by omega)]
    exact duplicatedCount_dropDuplicates _
  · rename_i hdup
    omega

/-- Witness for the amended C2 at a dirty dataset: a quantity column
with a missing value and one sentinel, and a categorical column with a
missing value. -/
theorem C2_pipeline_missing_dups_witness :
    (∀ j, j < dfDirty.names.length →
      eligibleC2 ((schemaTypes noParse dfDirty).getD j CType.unknown) = true →
      noNullCol (cleanPipeline noParse true knn0 0 dfDirty).df.rows j) ∧
    duplicatedCount (cleanPipeline noParse true knn0 0 dfDirty).df.rows = 0 :=
  C2_pipeline_missing_dups noParse true knn0 0 dfDirty (by decide)
    (by with_unfolding_all decide)

/-- Counterexample to C2 as stated: a dataset with zero missing cells
and one duplicate among two rows (d < row_count) whose single column is
numeric, yet after the full run that numeric column holds a missing
cell: the quantity column is entirely the sentinel 999, so the
business-rule pass writes the median of no values (NaN) into it. -/
theorem C2_counterexample :
    missingCells dfQtyAllSentinel = 0 ∧
    duplicatedCount dfQtyAllSentinel.rows = 1 ∧
    duplicatedCount dfQtyAllSentinel.rows < dfQtyAllSentinel.rows.length ∧
    (schemaTypes noParse dfQtyAllSentinel).getD 0 CType.unknown = CType.numeric ∧
    ¬ noNullCol (cleanPipeline noParse true knn0 0 dfQtyAllSentinel).df.rows 0 := by
  with_unfolding_all decide

theorem qualityScore_of_clean (df : DF) (hm : missingCells df = 0)
    (hd : duplicatedCount df.rows = 0) :
    (profileData df).qualityScore = 100 := by
  simp only [profileData, hm, hd]
  split_ifs <;> norm_num

theorem qualityScore_eq_100_iff (df : DF)
    (hlen : ∀ r ∈ df.rows, r.length = df.names.length)
    (hrow : df.rows ≠ []) (hcol : df.names ≠ []) :
    (profileData df).qualityScore = 100 ↔
      missingCells df = 0 ∧ duplicatedCount df.rows = 0 := by
  constructor
  · intro h
    have hmb := missingPercentage_bounds df hlen
    have hdb := duplicatePercentage_bounds df
    have hq : (profileData df).qualityScore =
        (100 - (profileData df).missingPercentage) * 0.6 +
          (100 - (profileData df).duplicatePercentage) * 0.4 := rfl
    rw [hq] at h
    have hmp : (profileData df).missingPercentage = 0 := by
      nlinarith [hmb.1, hmb.2, hdb.1, hdb.2]
    have hdp : (profileData df).duplicatePercentage = 0 := by
      nlinarith [hmb.1, hmb.2, hdb.1, hdb.2]
    have htot : 0 < df.rows.length * df.names.length :=
      Nat.mul_pos (List.length_pos.mpr hrow) (List.length_pos.mpr hcol)
    have hn : 0 < df.rows.length := List.length_pos.mpr hrow
    constructor
    · have hform : (profileData df).missingPercentage =
          (missingCells df : ℚ) / ((df.rows.length * df.names.length : ℕ) : ℚ) * 100 := by
        simp only [profileData]
        rw [if_pos htot]
      rw [hform] at hmp
      have htQ : ((df.rows.length * df.names.length : ℕ) : ℚ) ≠ 0 := by
        exact_mod_cast Nat.pos_iff_ne_zero.mp htot
      have hmQ : (missingCells df : ℚ) = 0 := by
        rcases mul_eq_zero.mp hmp with h1 | h1
        · exact (div_eq_zero_iff.mp h1).resolve_right htQ
        · norm_num at h1
      exact_mod_cast hmQ
    · have hform : (profileData df).duplicatePercentage =
          (duplicatedCount df.rows : ℚ) / ((df.rows.length : ℕ) : ℚ) * 100 := by
        simp only [profileData]
        rw [if_pos hn]
      rw [hform] at hdp
      have hnQ : ((df.rows.length : ℕ) : ℚ) ≠ 0 := by
        exact_mod_cast Nat.pos_iff_ne_zero.mp hn
      have hdQ : (duplicatedCount df.rows : ℚ) = 0 := by
        rcases mul_eq_zero.mp hdp with h1 | h1
        · exact (div_eq_zero_iff.mp h1).resolve_right hnQ
        · norm_num at h1
      exact_mod_cast hdQ
  · rintro ⟨hm, hd⟩
    exact qualityScore_of_clean df hm hd

theorem imputeOut_preserveNoNull (P : Parsers) (knnOk : Bool) (knn : ℕ → ℕ → ℚ)
    (df0 : DF) (j : ℕ)
    (hlenj : ∀ r ∈ df0.rows, j < r.length)
    (h : noNullCol df0.rows j) :
    noNullCol (imputeOut P knnOk knn df0).rows j := by
  unfold imputeOut
  split
  · rename_i hmiss
    have hne : ¬ missingCells df0 = 0 := by omega
    have hrows : (handleMissingValues P knnOk knn (schemaTypes P df0) df0).1.rows =
        transformCells (imputeG P knnOk knn (schemaTypes P df0) df0) df0.rows := by
      simp only [handleMissingValues, if_neg hne]
    rw [hrows]
    exact transformCells_col_preserve _ _ _ hlenj h
      (fun i c hc => imputeG_preserves P knnOk knn _ df0 i j c hc)
  · exact h

theorem cleanPipeline_statsBefore (P : Parsers) (knnOk : Bool) (knn : ℕ → ℕ → ℚ)
    (iso : ℕ) (df0 : DF) :
    (cleanPipeline P knnOk knn iso df0).statsBefore = profileData df0 := rfl

theorem cleanPipeline_statsAfter (P : Parsers) (knnOk : Bool) (knn : ℕ → ℕ → ℚ)
    (iso : ℕ) (df0 : DF) :
    (cleanPipeline P knnOk knn iso df0).statsAfter =
      profileData (cleanPipeline P knnOk knn iso df0).df := rfl

theorem cleanPipeline_names (P : Parsers) (knnOk : Bool) (knn : ℕ → ℕ → ℚ)
    (iso : ℕ) (df0 : DF) :
    (cleanPipeline P knnOk knn iso df0).df.names = df0.names := by
  rw [cleanPipeline_df]
  split
  · rw [removeDuplicates_names, handleOutliers_names, imputeOut_names]
  · rw [handleOutliers_names, imputeOut_names]

theorem cleanPipeline_rowlen (P : Parsers) (knnOk : Bool) (knn : ℕ → ℕ → ℚ)
    (iso : ℕ) (df0 : DF)
    (hlen : ∀ r ∈ df0.rows, r.length = df0.names.length) :
    ∀ r ∈ (cleanPipeline P knnOk knn iso df0).df.rows,
      r.length = df0.names.length := by
  have h1 := imputeOut_rowlen P knnOk knn df0 _ hlen
  have h2 := handleOutliers_rowlen iso (schemaTypes P df0) (imputeOut P knnOk knn df0)
    _ h1
  rw [cleanPipeline_df]
  split
  · intro r hr
    exact h2 r (removeDuplicates_mem _ r hr)
  · exact h2

/-- C3 (amended): for a non-empty input whose missing cells all lie in
imputable columns (inferred numeric, categorical, text or boolean) and
which satisfies the sentinel proviso of C2, the after-cleaning score is
exactly 100, hence at least the before-cleaning score, with equality
exactly when the input already had zero missing cells and zero
duplicate rows.  (As stated the claim fails: when missing cells sit in
non-imputable columns, dropping duplicate rows raises the missing
percentage and can lower the score; see the counterexample.) -/
theorem C3_quality_monotonicity (P : Parsers) (knnOk : Bool) (knn : ℕ → ℕ → ℚ)
    (iso : ℕ) (df0 : DF)
    (hlen : ∀ r ∈ df0.rows, r.length = df0.names.length)
    (hrow : df0.rows ≠ []) (hcol : df0.names ≠ [])
    (hconf : ∀ j, j < df0.names.length →
      imputable ((schemaTypes P df0).getD j CType.unknown) = false →
      colNullCount df0 j = 0)
    (hprov : sentinelProviso (rule2Input P knnOk knn df0)) :
    (cleanPipeline P knnOk knn iso df0).statsAfter.qualityScore = 100 ∧
    (cleanPipeline P knnOk knn iso df0).statsBefore.qualityScore ≤
      (cleanPipeline P knnOk knn iso df0).statsAfter.qualityScore ∧
    ((cleanPipeline P knnOk knn iso df0).statsAfter.qualityScore =
        (cleanPipeline P knnOk knn iso df0).statsBefore.qualityScore ↔
      missingCells df0 = 0 ∧ duplicatedCount df0.rows = 0) := by
  have hdf := cleanPipeline_df P knnOk knn iso df0
  have hFnoNull : ∀ j, j < df0.names.length →
      noNullCol (cleanPipeline P knnOk knn iso df0).df.rows j := by
    intro j hj
    have hI : noNullCol (imputeOut P knnOk knn df0).rows j := by
      by_cases himp : imputable ((schemaTypes P df0).getD j CType.unknown) = true
      · exact imputeOut_noNull P knnOk knn df0 j hlen hj himp
      · have h0 := hconf j hj (by simpa using himp)
        exact imputeOut_preserveNoNull P knnOk knn df0 j
          (fun r hr => by rw [hlen r hr]; exact hj)
          ((colNullCount_zero_iff df0 j).mp h0)
    have hlenI : ∀ r ∈ (imputeOut P knnOk knn df0).rows,
        r.length = (imputeOut P knnOk knn df0).names.length := by
      rw [imputeOut_names]
      exact imputeOut_rowlen P knnOk knn df0 _ hlen
    have hjI : j < (imputeOut P knnOk knn df0).names.length := by
      rw [imputeOut_names]
      exact hj
    have hmed : rule2Active
        (rule1Pass (iqrPass (schemaTypes P df0) (imputeOut P knnOk knn df0)).1).1 j
          = true →
        0 < colSentinelCount
          (rule1Pass (iqrPass (schemaTypes P df0) (imputeOut P knnOk knn df0)).1).1 j →
        (colMedianNonSentinel
          (rule1Pass (iqrPass (schemaTypes P df0) (imputeOut P knnOk knn df0)).1).1
            j).isSome = true := by
      intro ha hs
      have hjB : j < (rule2Input P knnOk knn df0).names.length := by
        rw [rule2Input_names]
        exact hj
      exact hprov j hjB ha hs
    have hO : noNullCol (handleOutliers iso (schemaTypes P df0)
        (imputeOut P knnOk knn df0)).1.rows j :=
      handleOutliers_noNull iso (schemaTypes P df0) (imputeOut P knnOk knn df0) j
        hlenI hjI hI hmed
    rw [hdf]
    split
    · intro r hr
      exact hO r (removeDuplicates_mem _ r hr)
    · exact hO
  have hFmiss : missingCells (cleanPipeline P knnOk knn iso df0).df = 0 := by
    apply missingCells_eq_zero_of
    · rw [cleanPipeline_names]
      exact cleanPipeline_rowlen P knnOk knn iso df0 hlen
    · rw [cleanPipeline_names]
      exact hFnoNull
  have hFdup := cleanPipeline_dup_zero P knnOk knn iso df0
  have hafter : (cleanPipeline P knnOk knn iso df0).statsAfter.qualityScore = 100 := by
    rw [cleanPipeline_statsAfter]
    exact qualityScore_of_clean _ hFmiss hFdup
  have hbefore : (cleanPipeline P knnOk knn iso df0).statsBefore.qualityScore ≤ 100 := by
    rw [cleanPipeline_statsBefore]
    exact (qualityScore_bounds df0 hlen).2
  refine ⟨hafter, by rw [hafter]; exact hbefore, ?_⟩
  rw [hafter, cleanPipeline_statsBefore]
  constructor
  · intro h
    exact (qualityScore_eq_100_iff df0 hlen hrow hcol).mp h.symm
  · intro h
    exact ((qualityScore_eq_100_iff df0 hlen hrow hcol).mpr h).symm

/-- Witness for the amended C3 at the dirty dataset: every missing cell
lies in an imputable column, so the final score is 100 and exceeds the
initial score. -/
theorem C3_quality_monotonicity_witness :
    (cleanPipeline noParse true knn0 0 dfDirty).statsAfter.qualityScore = 100 ∧
    (cleanPipeline noParse true knn0 0 dfDirty).statsBefore.qualityScore ≤
      (cleanPipeline noParse true knn0 0 dfDirty).statsAfter.qualityScore ∧
    ((cleanPipeline noParse true knn0 0 dfDirty).statsAfter.qualityScore =
        (cleanPipeline noParse true knn0 0 dfDirty).statsBefore.qualityScore ↔
      missingCells dfDirty = 0 ∧ duplicatedCount dfDirty.rows = 0) :=
  C3_quality_monotonicity noParse true knn0 0 dfDirty (by decide) (by decide)
    (by decide) (by with_unfolding_all decide) (by with_unfolding_all decide)

/-- Counterexample to C3 as stated: a non-empty dataset (six rows, one
exact duplicate, missing cells confined to datetime columns) on which
the full pipeline strictly lowers the quality score: dropping the
duplicate row raises the missing percentage from 24/42 to 24/35, which
costs the 0.6-weighted completeness more than the 0.4-weighted
uniqueness gains. -/
theorem C3_counterexample :
    dfDedupDrop.rows ≠ [] ∧
    (cleanPipeline noParse true knn0 0 dfDedupDrop).statsAfter.qualityScore <
      (cleanPipeline noParse true knn0 0 dfDedupDrop).statsBefore.qualityScore := by
  with_unfolding_all decide

end AIE
